import Mathlib

/-!
Verification development for the NWChem output decoder
(`pymatgen/io/nwchem.py`, class `NwOutput`).

The decoder is embedded shallowly: every regular expression of the source
is rendered as a deterministic matcher over `List Char` (each source
pattern consists of literals and character classes `X+`/`X*` whose
follower is always disjoint from the class, so greedy maximal-munch
matching coincides with Python's backtracking semantics), Python floats
are modelled as exact rationals `ℚ`, Python exceptions as `Except String`,
Python `dict`s as insertion-ordered association lists, and Python's
negative-index list accesses via explicit `ℤ`-index helpers.
-/

set_option maxRecDepth 100000

/-! ## Python string primitives -/

/-- Python `\s` (ASCII whitespace as produced by `str.split`/`str.strip`). -/
def isPySpace (c : Char) : Bool :=
  c == ' ' || c == '\t' || c == '\n' || c == '\r' || c == '\x0b' || c == '\x0c'

/-- Python regex `\w` (ASCII view). -/
def isWordChar (c : Char) : Bool := c.isAlphanum || c == '_'

/-- Character class `[.\-\d]` (also `[0-9.\-]`) used by the numeric captures. -/
def isNumTok (c : Char) : Bool := c == '.' || c == '-' || c.isDigit

/-- Python `str.strip()`. -/
def pyStrip (s : String) : String :=
  String.mk (((s.data.dropWhile isPySpace).reverse.dropWhile isPySpace).reverse)

/-- Worker for `pySplitWs`: accumulate the current (reversed) token while
scanning. -/
def wsSplitAux : List Char → List Char → List (List Char)
  | acc, [] => if acc.isEmpty then [] else [acc.reverse]
  | acc, c :: cs =>
    if isPySpace c then
      if acc.isEmpty then wsSplitAux [] cs
      else acc.reverse :: wsSplitAux [] cs
    else wsSplitAux (c :: acc) cs

/-- Python `str.split()` with no argument: split on whitespace runs,
dropping empty pieces. -/
def pySplitWs (s : String) : List String :=
  (wsSplitAux [] s.data).map String.mk

/-- Fuel-bounded worker for `splitOnCS`; structural recursion on the fuel
so that the kernel can evaluate it (each step consumes at least one
character, so `fuel = length` always suffices and the `0` case is never
reached from `splitOnCS`). -/
def splitOnFuel (sep : List Char) : ℕ → List Char → List (List Char)
  | 0, l => [l]
  | _ + 1, [] => [[]]
  | fuel + 1, c :: cs =>
    if sep ≠ [] ∧ sep.isPrefixOf (c :: cs) then
      [] :: splitOnFuel sep fuel (List.drop sep.length (c :: cs))
    else
      match splitOnFuel sep fuel cs with
      | [] => [[c]]
      | p :: ps => (c :: p) :: ps

/-- Splitting of a character list on a literal separator, mirroring Python
`str.split(sep)` (non-overlapping, left to right). -/
def splitOnCS (sep l : List Char) : List (List Char) :=
  splitOnFuel sep l.length l

/-- Python `str.split(sep)` for a literal separator. -/
def pySplitStr (s sep : String) : List String :=
  (splitOnCS sep.data s.data).map String.mk

/-- Python `sub in s` / `s.find(sub) != -1` for a non-empty literal `sub`. -/
def strContains (s sub : String) : Bool :=
  1 < (splitOnCS sub.data s.data).length

/-- Python `str.startswith`. -/
def pyStartsWith (s pre : String) : Bool := pre.data.isPrefixOf s.data

/-- Python `str.capitalize()`: first character upper-cased, rest lower-cased. -/
def pyCapitalize (s : String) : String :=
  match s.data with
  | [] => s
  | c :: cs => String.mk (c.toUpper :: cs.map Char.toLower)

/-- Python `str.lower()`. -/
def pyLower (s : String) : String := String.mk (s.data.map Char.toLower)

/-- Python `str.replace(pat, repl)` (all occurrences, for non-empty `pat`):
the pieces of the split on `pat` rejoined with `repl`. -/
def pyReplace (s pat repl : String) : String :=
  String.intercalate repl (pySplitStr s pat)

/-- Value of a digit string (most significant first). -/
def digitsToNat (l : List Char) : ℕ :=
  l.foldl (fun a c => a * 10 + (c.toNat - 48)) 0

/-- Python `float(s)` on the strings fed to it by this decoder: optional
sign, decimal digits with optional fraction and optional `e`/`E` exponent,
the whole (stripped) string consumed; exact value as a rational.
Returns `none` where Python raises `ValueError`. -/
def pyFloat? (s0 : String) : Option ℚ :=
  let cs0 := (pyStrip s0).data
  let sgn : ℚ := match cs0 with
    | '-' :: _ => -1
    | _ => 1
  let cs1 : List Char := match cs0 with
    | '-' :: r => r
    | '+' :: r => r
    | _ => cs0
  let ip := cs1.takeWhile Char.isDigit
  let cs2 := cs1.dropWhile Char.isDigit
  let fp : List Char := match cs2 with
    | '.' :: r => r.takeWhile Char.isDigit
    | _ => []
  let cs3 : List Char := match cs2 with
    | '.' :: r => r.dropWhile Char.isDigit
    | _ => cs2
  if ip.isEmpty && fp.isEmpty then none
  else
    let mant : ℚ := sgn * ((digitsToNat ip : ℚ) + (digitsToNat fp : ℚ) / ((10 : ℚ) ^ fp.length))
    match cs3 with
    | [] => some mant
    | e :: r =>
      if e == 'e' || e == 'E' then
        let esgn : ℤ := match r with
          | '-' :: _ => -1
          | _ => 1
        let r1 : List Char := match r with
          | '-' :: rr => rr
          | '+' :: rr => rr
          | _ => r
        let ed := r1.takeWhile Char.isDigit
        let r2 := r1.dropWhile Char.isDigit
        if ed.isEmpty || !r2.isEmpty then none
        else some (mant * (10 : ℚ) ^ (esgn * (digitsToNat ed : ℤ)))
      else none

/-- Python `int(s)`: optional sign, decimal digits, whole string consumed.
Returns `none` where Python raises `ValueError`. -/
def pyInt? (s0 : String) : Option ℤ :=
  let cs0 := (pyStrip s0).data
  let sgn : ℤ := match cs0 with
    | '-' :: _ => -1
    | _ => 1
  let cs1 : List Char := match cs0 with
    | '-' :: r => r
    | '+' :: r => r
    | _ => cs0
  if cs1.isEmpty || !(cs1.all Char.isDigit) then none
  else some (sgn * (digitsToNat cs1 : ℤ))

/-- Python `float(s)` where failure raises `ValueError`. -/
def toFloatE (s : String) : Except String ℚ :=
  match pyFloat? s with
  | some q => pure q
  | none => Except.error "ValueError: could not convert string to float"

/-- Python list read `l[i]` with negative-index support; out of range is
an `IndexError`. -/
def pyGetE {α : Type} (l : List α) (i : ℤ) : Except String α :=
  let j : ℤ := if i < 0 then i + l.length else i
  if h : j.toNat < l.length ∧ 0 ≤ j then pure (l.get ⟨j.toNat, h.1⟩)
  else Except.error "IndexError: list index out of range"

/-- Python in-place update `l[i] = f(l[i])` (used for `l[i].extend(..)`,
`l[i] = v`, `l[i] |= ..`) with negative-index support. -/
def pyUpdateE {α : Type} (l : List α) (i : ℤ) (f : α → α) : Except String (List α) :=
  let j : ℤ := if i < 0 then i + l.length else i
  if h : j.toNat < l.length ∧ 0 ≤ j then
    pure (l.set j.toNat (f (l.get ⟨j.toNat, h.1⟩)))
  else Except.error "IndexError: list assignment index out of range"

/-- Python `l.pop(i)` for a non-negative literal index. -/
def pyPopAt {α : Type} (l : List α) (i : ℕ) : Except String (List α) :=
  if i < l.length then pure (l.take i ++ l.drop (i + 1))
  else Except.error "IndexError: pop index out of range"

/-- Python `dict` write `d[k] = v`: replace in place if the key is present,
else append (insertion order preserved). -/
def dictSet {α : Type} (d : List (String × α)) (k : String) (v : α) : List (String × α) :=
  if d.any (fun kv => kv.1 == k) then d.map (fun kv => if kv.1 == k then (k, v) else kv)
  else d ++ [(k, v)]

/-! ## Deterministic matchers for the source regular expressions

Each Python pattern in `_parse_job` is a sequence of literals and
character classes (`X+`, `X*`, one alternation of literals); every class
is followed by a token outside the class, so Python's greedy backtracking
matcher and the maximal-munch matcher below accept exactly the same
strings with the same captures.  `reSearch` mirrors `re.search`: leftmost
match wins. -/

/-- A matcher consumes characters and accumulates captured groups. -/
def PM : Type := List Char → List String → Option (List Char × List String)

/-- Matches nothing, consumes nothing. -/
def pmEmpty : PM := fun cs caps => some (cs, caps)

/-- Drop a literal prefix. -/
def dropLit : List Char → List Char → Option (List Char)
  | [], cs => some cs
  | p :: ps, c :: cs => if p == c then dropLit ps cs else none
  | _ :: _, [] => none

/-- Drop a literal prefix in which `.` (regex any-char) matches any character. -/
def dropLitDot : List Char → List Char → Option (List Char)
  | [], cs => some cs
  | p :: ps, c :: cs => if p == '.' || p == c then dropLitDot ps cs else none
  | _ :: _, [] => none

/-- Literal piece of a pattern. -/
def pmLit (s : String) : PM := fun cs caps => (dropLit s.data cs).map (fun r => (r, caps))

/-- Literal piece in which a `.` of the pattern matches any character. -/
def pmLitDot (s : String) : PM := fun cs caps => (dropLitDot s.data cs).map (fun r => (r, caps))

/-- Single character of a class, e.g. `[123]`. -/
def pmOne (p : Char → Bool) : PM := fun cs caps =>
  match cs with
  | c :: r => if p c then some (r, caps) else none
  | [] => none

/-- Uncaptured `X+`. -/
def pmPlus (p : Char → Bool) : PM := fun cs caps =>
  if (cs.takeWhile p).isEmpty then none else some (cs.dropWhile p, caps)

/-- Uncaptured `X*`. -/
def pmStar (p : Char → Bool) : PM := fun cs caps => some (cs.dropWhile p, caps)

/-- Captured `(X+)`. -/
def pmCapPlus (p : Char → Bool) : PM := fun cs caps =>
  if (cs.takeWhile p).isEmpty then none
  else some (cs.dropWhile p, caps ++ [String.mk (cs.takeWhile p)])

/-- Sequence of two matchers. -/
def pmSeq (a b : PM) : PM := fun cs caps =>
  match a cs caps with
  | some (cs1, caps1) => b cs1 caps1
  | none => none

/-- Sequence of a list of matchers. -/
def pmSeqs (l : List PM) : PM := l.foldl pmSeq pmEmpty

/-- Capturing group around a sub-matcher: captures the consumed text
(before any captures produced inside). -/
def pmCapOf (m : PM) : PM := fun cs caps =>
  match m cs [] with
  | some (rest, inner) =>
    some (rest, caps ++ [String.mk (cs.take (cs.length - rest.length))] ++ inner)
  | none => none

/-- Ordered alternation, as in `(A|B|C)`. -/
def pmAlt : List PM → PM
  | [] => fun _ _ => none
  | m :: ms => fun cs caps =>
    match m cs caps with
    | some r => some r
    | none => pmAlt ms cs caps

/-- Leftmost search: try the matcher at every start position. -/
def searchFrom (m : PM) : List Char → Option (List String)
  | [] => (m [] []).map Prod.snd
  | c :: cs =>
    match m (c :: cs) [] with
    | some (_, caps) => some caps
    | none => searchFrom m cs

/-- Python `patt.search(line)`, returning the list of captured groups. -/
def reSearch (m : PM) (s : String) : Option (List String) := searchFrom m s.data

/-! The patterns of `NwOutput._parse_job` (source lines 676-687). -/

/-- Source: `re.compile(r"Total \w+ energy\s+=\s+([.\-\d]+)")`. -/
def energy_patt : PM :=
  pmSeqs [pmLit "Total ", pmPlus isWordChar, pmLit " energy", pmPlus isPySpace,
    pmLit "=", pmPlus isPySpace, pmCapPlus isNumTok]

/-- Source: `re.compile(r"gas phase energy\s+=\s+([.\-\d]+)")`. -/
def energy_gas_patt : PM :=
  pmSeqs [pmLit "gas phase energy", pmPlus isPySpace, pmLit "=", pmPlus isPySpace,
    pmCapPlus isNumTok]

/-- Source: `re.compile(r"sol phase energy\s+=\s+([.\-\d]+)")`. -/
def energy_sol_patt : PM :=
  pmSeqs [pmLit "sol phase energy", pmPlus isPySpace, pmLit "=", pmPlus isPySpace,
    pmCapPlus isNumTok]

/-- Source: `re.compile(r"\d+\s+(\w+)\s+[.\-\d]+\s+([.\-\d]+)\s+([.\-\d]+)\s+([.\-\d]+)")`. -/
def coord_patt : PM :=
  pmSeqs [pmPlus Char.isDigit, pmPlus isPySpace, pmCapPlus isWordChar, pmPlus isPySpace,
    pmPlus isNumTok, pmPlus isPySpace, pmCapPlus isNumTok, pmPlus isPySpace,
    pmCapPlus isNumTok, pmPlus isPySpace, pmCapPlus isNumTok]

/-- Source: `re.compile(r"a[123]=<\s+([.\-\d]+)\s+([.\-\d]+)\s+([.\-\d]+)\s+>")`. -/
def lat_vector_patt : PM :=
  pmSeqs [pmLit "a", pmOne (fun c => c == '1' || c == '2' || c == '3'), pmLit "=<",
    pmPlus isPySpace, pmCapPlus isNumTok, pmPlus isPySpace, pmCapPlus isNumTok,
    pmPlus isPySpace, pmCapPlus isNumTok, pmPlus isPySpace, pmLit ">"]

/-- Source: `re.compile(r"([\w\-]+ correction to \w+)\s+=\s+([.\-\d]+)")`. -/
def corrections_patt : PM :=
  pmSeqs [pmCapOf (pmSeqs [pmPlus (fun c => isWordChar c || c == '-'),
      pmLit " correction to ", pmPlus isWordChar]),
    pmPlus isPySpace, pmLit "=", pmPlus isPySpace, pmCapPlus isNumTok]

/-- Source: `re.compile(r"(No. of atoms|No. of electrons|SCF calculation type|Charge|Spin multiplicity)\s*:\s*(\S+)")`. -/
def preamble_patt : PM :=
  pmSeqs [pmCapOf (pmAlt [pmLitDot "No. of atoms", pmLitDot "No. of electrons",
      pmLitDot "SCF calculation type", pmLitDot "Charge", pmLitDot "Spin multiplicity"]),
    pmStar isPySpace, pmLit ":", pmStar isPySpace, pmCapPlus (fun c => !isPySpace c)]

/-- Source: `re.compile(r"\s+(\d+)\s+(\w+)" + 6 * r"\s+([0-9\.\-]+)")`. -/
def force_patt : PM :=
  pmSeqs ([pmPlus isPySpace, pmCapPlus Char.isDigit, pmPlus isPySpace, pmCapPlus isWordChar] ++
    (List.range 6).flatMap (fun _ => [pmPlus isPySpace, pmCapPlus isNumTok]))

/-- Source: `re.compile(r"\s+ Task \s+ times \s+ cpu: \s+   ([.\d]+)s .+ ", re.VERBOSE)`;
with `re.VERBOSE` the unescaped pattern whitespace is ignored, leaving
`\s+Task\s+times\s+cpu:\s+([.\d]+)s.+`. -/
def time_patt : PM :=
  pmSeqs [pmPlus isPySpace, pmLit "Task", pmPlus isPySpace, pmLit "times", pmPlus isPySpace,
    pmLit "cpu:", pmPlus isPySpace, pmCapPlus (fun c => c == '.' || c.isDigit),
    pmLit "s", pmPlus (fun c => c != '\n')]

/-! ## External collaborator value objects -/

/-- Modelled from the spec: the external atomic-structure container for a
non-periodic system (list of species plus Cartesian coordinates); the core
only constructs it, so it is a plain value record here. -/
structure Molecule where
  species : List String
  coords : List (List ℚ)
deriving DecidableEq

/-- Modelled from the spec: the external atomic-structure container with a
periodic lattice (`Structure(lattice, species, coords, coords_are_cartesian=True)`). -/
structure PStructure where
  lattice : List (List ℚ)
  species : List String
  coords : List (List ℚ)
deriving DecidableEq

/-- Modelled from the spec: the external fixed Hartree to eV conversion
constant used by `Energy(x, "Ha").to("eV")` (value shortened to 27.2114;
no claim depends on the numeric value, and the short fraction keeps
kernel evaluation of concrete runs cheap). -/
def Ha_to_eV : ℚ := mkRat 136057 5000

/-- Modelled from the spec: the external kJ/mol to eV-per-atom conversion
constant used by `FloatWithUnit(x, "kJ mol^-1").to("eV atom^-1")` (value
shortened to 0.010364; no claim depends on the numeric value). -/
def kJmol_to_eV_atom : ℚ := mkRat 2591 250000

/-! ## Data model of a decoded job -/

/-- A Python value as stored in the `energies` list: either a plain float
or a (possibly nested) string-keyed dict, as produced for COSMO runs. -/
inductive PyVal : Type where
  | num : ℚ → PyVal
  | dict : List (String × PyVal) → PyVal

/-- Scalar fields from the job preamble (`int(...)` succeeded or the raw
string was kept, mirroring the `try/except ValueError`). -/
inductive PreVal : Type where
  | i : ℤ → PreVal
  | s : String → PreVal
deriving DecidableEq

/-- The mutable locals of `NwOutput._parse_job` (source lines 702-727). -/
structure JobSt where
  parse_hess : Bool
  parse_proj_hess : Bool
  hessian : Option (List (List ℚ))
  projected_hessian : Option (List (List ℚ))
  parse_force : Bool
  all_forces : List (List ℚ)
  forces : List ℚ
  scalars : List (String × PreVal)
  energies : List PyVal
  frequencies : Option (List (ℚ × List ℚ))
  normal_frequencies : Option (List (ℚ × List ℚ))
  corrections : List (String × ℚ)
  molecules : List Molecule
  structures : List PStructure
  species : List String
  coords : List (List ℚ)
  lattice : List (List ℚ)
  errors : List String
  basis_set : List (String × List (String × String))
  bset_header : List String
  parse_geom : Bool
  parse_freq : Bool
  parse_bset : Bool
  parse_projected_freq : Bool
  job_type : String
  parse_time : Bool
  time : Sum ℤ String

/-- Initial state of `_parse_job` (`time = 0`, an `int`; everything else
empty / `None` / `False`). -/
def initJobSt : JobSt where
  parse_hess := false
  parse_proj_hess := false
  hessian := none
  projected_hessian := none
  parse_force := false
  all_forces := []
  forces := []
  scalars := []
  energies := []
  frequencies := none
  normal_frequencies := none
  corrections := []
  molecules := []
  structures := []
  species := []
  coords := []
  lattice := []
  errors := []
  basis_set := []
  bset_header := []
  parse_geom := false
  parse_freq := false
  parse_bset := false
  parse_projected_freq := false
  job_type := ""
  parse_time := false
  time := Sum.inl 0

/-- The decoded job record (`data` dict assembled at source lines 913-928).
`task_time` keeps Python's dynamic type: the initial `int 0` or the raw
matched string. -/
structure JobRecord where
  scalars : List (String × PreVal)
  job_type : String
  energies : List PyVal
  corrections : List (String × ℚ)
  molecules : List Molecule
  structures : List PStructure
  basis_set : List (String × List (String × String))
  errors : List String
  has_error : Bool
  frequencies : Option (List (ℚ × List (ℚ × ℚ × ℚ)))
  normal_frequencies : Option (List (ℚ × List (ℚ × ℚ × ℚ)))
  hessian : Option (List (List ℚ))
  projected_hessian : Option (List (List ℚ))
  forces : List (List ℚ)
  task_time : Sum ℤ String

/-- Source line 689-694: the table of known failure signatures. -/
def error_defs : List (String × String) :=
  [("calculations not reaching convergence", "Bad convergence"),
   ("Calculation failed to converge", "Bad convergence"),
   ("geom_binvr: #indep variables incorrect", "autoz error"),
   ("dft optimize failed", "Geometry optimization failed")]

/-- Source lines 696-697: `fort2py`, normalizing Fortran `D` exponents. -/
def fort2py (x : String) : String := pyReplace x "D" "e"

/-- Source lines 699-700: `isfloatstring` is `True` when the token has no
decimal point. -/
def isfloatstring (in_str : String) : Bool := !strContains in_str "."

/-- Source lines 736-752: the `parse_geom` block.  Both the coordinate
match and the lattice-vector match are attempted on each non-terminator
line; `float` on a matched `[.\-\d]+` group can still raise. -/
def geomStep (st : JobSt) (line : String) : Except String JobSt := do
  if pyStrip line == "Atomic Mass" then
    let st1 :=
      if st.lattice.isEmpty then
        { st with molecules := st.molecules ++ [Molecule.mk st.species st.coords] }
      else
        { st with structures :=
            st.structures ++ [PStructure.mk st.lattice st.species st.coords] }
    pure { st1 with species := [], coords := [], lattice := [], parse_geom := false }
  else do
    let st1 ←
      match reSearch coord_patt line with
      | some (el :: x :: y :: z :: _) => do
        let xq ← toFloatE x
        let yq ← toFloatE y
        let zq ← toFloatE z
        pure { st with species := st.species ++ [pyCapitalize el],
                       coords := st.coords ++ [[xq, yq, zq]] }
      | _ => pure st
    match reSearch lat_vector_patt line with
    | some (a :: b :: c :: _) => do
      let aq ← toFloatE a
      let bq ← toFloatE b
      let cq ← toFloatE c
      pure { st1 with lattice := st1.lattice ++ [[aq, bq, cq]] }
    | _ => pure st1

/-- Source lines 754-760: the `parse_force` block.  A matching row extends
the pending force buffer with the last three captured floats; the first
non-matching line after a started row flushes the buffer and leaves the
block. -/
def forceStep (st : JobSt) (line : String) : Except String JobSt := do
  match reSearch force_patt line with
  | some caps => do
    let vals ← (caps.drop 5).mapM toFloatE
    pure { st with forces := st.forces ++ vals }
  | none =>
    if st.forces.length > 0 then
      pure { st with all_forces := st.all_forces ++ [st.forces], forces := [],
                     parse_force := false }
    else pure st

/-- Shared body of the two frequency blocks (source lines 762-771 and
773-782): a blank line ends the block unless the most recently opened mode
has no displacements yet; a data line distributes one float per column to
the last `n_vibs` modes.  Returns the updated mode list and the block
flag. -/
def vibStep (modes : List (ℚ × List ℚ)) (line : String) :
    Except String (List (ℚ × List ℚ) × Bool) := do
  if (pyStrip line).data.length = 0 then
    let last ← pyGetE modes (-1)
    if last.2.length = 0 then
      pure (modes, true)
    else
      pure (modes, false)
  else
    let vibs ← ((pySplitWs (pyStrip line)).drop 1).mapM toFloatE
    let k := modes.length - vibs.length
    pure (modes.take k ++ List.zipWith (fun m v => (m.1, m.2 ++ [v])) (modes.drop k) vibs, true)

/-- Source lines 762-771: the `parse_freq` block over `normal_frequencies`. -/
def freqStep (st : JobSt) (line : String) : Except String JobSt := do
  match st.normal_frequencies with
  | none => Except.error "TypeError: NoneType is not subscriptable"
  | some modes => do
    let r ← vibStep modes line
    pure { st with normal_frequencies := some r.1, parse_freq := r.2 }

/-- Source lines 773-782: the `parse_projected_freq` block over `frequencies`. -/
def projFreqStep (st : JobSt) (line : String) : Except String JobSt := do
  match st.frequencies with
  | none => Except.error "TypeError: NoneType is not subscriptable"
  | some modes => do
    let r ← vibStep modes line
    pure { st with frequencies := some r.1, parse_projected_freq := r.2 }

/-- Python `re.match(r"-+", tok)`: the token begins with a dash. -/
def startsWithDash (s : String) : Bool :=
  match s.data with
  | c :: _ => c == '-'
  | [] => false

/-- Source lines 784-794: the `parse_bset` block.  A blank line ends the
block; a `Tag` header row becomes the (lower-cased) column names with
index 4 popped; a row whose first token begins with a dash
(`re.match(r"-+", tokens[0])`) is skipped; any other row maps its first
token to the zip of the remaining header names with its remaining tokens. -/
def bsetStep (st : JobSt) (line : String) : Except String JobSt := do
  if pyStrip line == "" then
    pure { st with parse_bset := false }
  else
    match pySplitWs line with
    | [] => Except.error "IndexError: list index out of range"
    | tok0 :: rest =>
      if tok0 ≠ "Tag" && !(startsWithDash tok0) then
        let row := ((st.bset_header.drop 1).zip rest).foldl (fun d kv => dictSet d kv.1 kv.2) []
        pure { st with basis_set := dictSet st.basis_set tok0 row }
      else if tok0 == "Tag" then do
        let hdr ← pyPopAt (tok0 :: rest) 4
        pure { st with bset_header := hdr.map pyLower }
      else pure st

/-- Shared row accumulation of the nuclear-hessian block (source lines
796-814), on the bare matrix: blank lines are skipped; a dashed separator
after at least one row ends the block; a row line appends its columns as a
new row or extends row `row-1`; a non-integer first token or a second
token without a decimal point skips the line. -/
def hessRowsStep (hess : List (List ℚ)) (line : String) :
    Except String (List (List ℚ) × Bool) := do
  if pyStrip line == "" then pure (hess, true)
  else if hess.length > 0 && strContains line "----------" then
    pure (hess, false)
  else
    let toks := pySplitWs (pyStrip line)
    if toks.length > 1 then
      match pyInt? (toks.getD 0 "") with
      | none => pure (hess, true)
      | some row =>
        if isfloatstring (toks.getD 1 "") then pure (hess, true)
        else do
          let vals ← (toks.drop 1).mapM (fun x => toFloatE (fort2py x))
          if (hess.length : ℤ) < row then pure (hess ++ [vals], true)
          else do
            let hess1 ← pyUpdateE hess (row - 1) (fun r => r ++ vals)
            pure (hess1, true)
    else pure (hess, true)

/-- Source lines 796-814: the `parse_hess` block (the hessian was
initialized to a list when the header was seen). -/
def hessStep (st : JobSt) (line : String) : Except String JobSt := do
  match st.hessian with
  | none => Except.error "TypeError: NoneType"
  | some h => do
    let r ← hessRowsStep h line
    pure { st with hessian := some r.1, parse_hess := r.2 }

/-- Source lines 816-834: the `parse_proj_hess` block.  For every
non-blank line, `nat3 = len(hessian)` is evaluated first: if no nuclear
hessian was ever started, `hessian` is `None` and Python raises
`TypeError`.  Row accumulation matches the nuclear block; the block ends
once the last touched row reaches `nat3` columns. -/
def projHessStep (st : JobSt) (line : String) : Except String JobSt := do
  if pyStrip line == "" then pure st
  else do
    let nat3 ←
      match st.hessian with
      | some h => pure h.length
      | none => Except.error "TypeError: object of type NoneType has no len()"
    let ph ←
      match st.projected_hessian with
      | some p => pure p
      | none => Except.error "TypeError: NoneType"
    let toks := pySplitWs (pyStrip line)
    if toks.length > 1 then
      match pyInt? (toks.getD 0 "") with
      | none => pure st
      | some row =>
        if isfloatstring (toks.getD 1 "") then pure st
        else do
          let vals ← (toks.drop 1).mapM (fun x => toFloatE (fort2py x))
          let ph1 ←
            if (ph.length : ℤ) < row then pure (ph ++ [vals])
            else pyUpdateE ph (row - 1) (fun r => r ++ vals)
          let lastRow ← pyGetE ph1 (-1)
          if lastRow.length = nat3 then
            pure { st with projected_hessian := some ph1, parse_proj_hess := false }
          else
            pure { st with projected_hessian := some ph1 }
    else pure st

/-- Source lines 858-894: the `elif` cascade of the idle branch, run
when `preamble_patt` did not match. -/
def idleChain (output : String) (st : JobSt) (line : String) : Except String JobSt := do
  if strContains line "Geometry \"geometry\"" then pure { st with parse_geom := true }
  else if strContains line "Summary of \"ao basis\"" then pure { st with parse_bset := true }
  else if strContains line "P.Frequency" then do
    let newModes ← ((pySplitWs (pyStrip line)).drop 1).mapM (fun f => do
      let q ← toFloatE f
      pure (q, ([] : List ℚ)))
    pure { st with parse_projected_freq := true,
                   frequencies := some (st.frequencies.getD [] ++ newModes) }
  else if strContains line "Frequency" then
    if ((pySplitWs (pyStrip line)).length > 1 &&
        (pySplitWs (pyStrip line)).getD 0 "" == "Frequency") then do
      let newModes ← ((pySplitWs (pyStrip line)).drop 1).mapM (fun f => do
        let q ← toFloatE f
        pure (q, ([] : List ℚ)))
      pure { st with parse_freq := true,
                     normal_frequencies := some (st.normal_frequencies.getD [] ++ newModes) }
    else pure st
  else if strContains line "MASS-WEIGHTED NUCLEAR HESSIAN" then
    pure { st with parse_hess := true, hessian := some (st.hessian.getD []) }
  else if strContains line "MASS-WEIGHTED PROJECTED HESSIAN" then
    pure { st with parse_proj_hess := true,
                   projected_hessian := some (st.projected_hessian.getD []) }
  else if strContains line "atom               coordinates                        gradient" then
    pure { st with parse_force := true }
  else if st.job_type == "" && pyStartsWith (pyStrip line) "NWChem" then
    pure { st with job_type :=
      (if (pyStrip line == "NWChem DFT Module" &&
            strContains output "COSMO solvation results") then
          pyStrip line ++ " COSMO"
        else pyStrip line) }
  else
    match reSearch corrections_patt line with
    | some (k :: v :: _) => do
      let q ← toFloatE v
      pure { st with corrections := dictSet st.corrections k (q * kJmol_to_eV_atom) }
    | _ => pure st

/-- Source lines 851-894: the tail of the idle branch: the
`preamble_patt` check, falling through to the `idleChain` cascade. -/
def elseTail (output : String) (st : JobSt) (line : String) : Except String JobSt := do
  match reSearch preamble_patt line with
  | some (k0 :: v0 :: _) =>
    let val : PreVal :=
      match pyInt? v0 with
      | some z => PreVal.i z
      | none => PreVal.s v0
    let k := pyReplace (pyReplace k0 "No. of " "n") " " "_"
    pure { st with scalars := dictSet st.scalars (pyLower k) val }
  | _ => idleChain output st line

/-- Source lines 842-846: the gas-phase check of the idle branch.  On a
match, the just-appended energy entry is replaced in place by a dict
holding it under `"cosmo scf"` together with the new `"gas phase"` value
(an `IndexError` if no energy was appended yet). -/
def gasStep (st : JobSt) (line : String) : Except String JobSt := do
  match reSearch energy_gas_patt line with
  | some (v :: _) => do
    let prev ← pyGetE st.energies (-1)
    let q ← toFloatE v
    let es ← pyUpdateE st.energies (-1) (fun _ =>
      PyVal.dict [("cosmo scf", prev), ("gas phase", PyVal.num (q * Ha_to_eV))])
    pure { st with energies := es }
  | _ => pure st

/-- Source lines 848-849: the sol-phase check of the idle branch.  On a
match, `energies[-1] |= {"sol phase": ...}`: a `TypeError` when the last
entry is still a plain float. -/
def solStep (st : JobSt) (line : String) : Except String JobSt := do
  match reSearch energy_sol_patt line with
  | some (v :: _) => do
    let last ← pyGetE st.energies (-1)
    match last with
    | PyVal.dict d => do
      let q ← toFloatE v
      let es ← pyUpdateE st.energies (-1) (fun _ =>
        PyVal.dict (dictSet d "sol phase" (PyVal.num (q * Ha_to_eV))))
      pure { st with energies := es }
    | PyVal.num _ =>
      Except.error "TypeError: unsupported operand type for ior"
  | _ => pure st

/-- Source lines 836-894: the idle (`else`) branch.  A total-energy line
appends the converted energy, arms the one-shot timing flag and skips the
rest of the line (`continue`); otherwise the gas-phase and sol-phase
checks run, then the `preamble_patt` check and the `elif` cascade of
`elseTail`. -/
def elseBranch (output : String) (st : JobSt) (line : String) : Except String JobSt := do
  match reSearch energy_patt line with
  | some (v :: _) => do
    let q ← toFloatE v
    pure { st with energies := st.energies ++ [PyVal.num (q * Ha_to_eV)],
                   parse_time := true }
  | _ => do
    let st1 ← gasStep st line
    let st2 ← solStep st1 line
    elseTail output st2 line

/-- Source lines 730-732: the unconditional failure-signature sweep over
`error_defs`. -/
def errSweep (st : JobSt) (line : String) : JobSt :=
  error_defs.foldl
    (fun s ev => if strContains line ev.1 then { s with errors := s.errors ++ [ev.2] } else s) st

/-- Source lines 733-735: the unconditional armed-timing check: while the
one-shot flag is armed, a line matching `time_patt` stores the matched
seconds token (a string) and disarms the flag. -/
def timeCheck (st : JobSt) (line : String) : JobSt :=
  if st.parse_time then
    match reSearch time_patt line with
    | some (c :: _) => { st with time := Sum.inr c, parse_time := false }
    | _ => st
  else st

/-- Source lines 754-894: the mutually exclusive block states, falling
back to the idle branch. -/
def blockDispatch (output : String) (st : JobSt) (line : String) : Except String JobSt :=
  if st.parse_force then forceStep st line
  else if st.parse_freq then freqStep st line
  else if st.parse_projected_freq then projFreqStep st line
  else if st.parse_bset then bsetStep st line
  else if st.parse_hess then hessStep st line
  else if st.parse_proj_hess then projHessStep st line
  else elseBranch output st line

/-- Source lines 729-894: processing of one line of the job chunk.  The
failure-signature sweep and the armed timing check run unconditionally;
the geometry block is an independent `if`; then exactly one of the other
block states (or the idle branch) interprets the line, using the state as
already updated by the earlier checks. -/
def processLine (output : String) (st0 : JobSt) (line : String) : Except String JobSt := do
  let st1 := errSweep st0 line
  let st2 := timeCheck st1 line
  let st3 ← if st2.parse_geom then geomStep st2 line else pure st2
  blockDispatch output st3 line

/-- Source lines 896-901: `zip(*[iter(mode)] * 3, strict=False)` regroups
a flat scalar list into consecutive triples, silently dropping a leftover
of fewer than three scalars. -/
def regroup3 {α : Type} : List α → List (α × α × α)
  | a :: b :: c :: rest => (a, b, c) :: regroup3 rest
  | _ => []

/-- Source lines 902-911: in-place symmetrization of a hessian.  For each
`ii`, row `ii` is extended with `hessian[jj][ii]` for `jj` in
`range(ii+1, n)`; all values read come from rows not yet extended, hence
from the input.  A row shorter than `ii+1` raises `IndexError`, exactly as
the Python subscript would. -/
def symmHess (h : List (List ℚ)) : Except String (List (List ℚ)) :=
  (List.range h.length).mapM (fun ii => do
    let extra ← (List.range' (ii + 1) (h.length - (ii + 1))).mapM (fun jj =>
      match (h.getD jj []).get? ii with
      | some v => pure v
      | none => Except.error "IndexError: list index out of range")
    pure (h.getD ii [] ++ extra))

/-- Python truthiness of `if hessian:` at lines 902/907: `None` and the
empty list are left alone, a non-empty hessian is symmetrized. -/
def symmIfNonempty : Option (List (List ℚ)) → Except String (Option (List (List ℚ)))
  | none => pure none
  | some [] => pure (some [])
  | some h => (symmHess h).map some

/-- Source lines 674-930: `NwOutput._parse_job` on one job chunk: fold the
line processor over the lines, then regroup the mode displacements into
triples and symmetrize both hessians. -/
def parse_job (output : String) : Except String JobRecord := do
  let st ← (pySplitStr output "\n").foldlM (processLine output) initJobSt
  let hessFinal ← symmIfNonempty st.hessian
  let projFinal ← symmIfNonempty st.projected_hessian
  pure {
    scalars := st.scalars
    job_type := st.job_type
    energies := st.energies
    corrections := st.corrections
    molecules := st.molecules
    structures := st.structures
    basis_set := st.basis_set
    errors := st.errors
    has_error := st.errors.length > 0
    frequencies := st.frequencies.map (List.map (fun fm => (fm.1, regroup3 fm.2)))
    normal_frequencies := st.normal_frequencies.map (List.map (fun fm => (fm.1, regroup3 fm.2)))
    hessian := hessFinal
    projected_hessian := projFinal
    forces := st.all_forces
    task_time := st.time }

/-! ## TDDFT root extractor (`NwOutput.parse_tddft`, source lines 569-611) -/

/-- One excited-state root: the `energy` key is set when the root is
started, `osc_strength` when the Dipole line arrives. -/
structure TDRoot where
  energy : ℚ
  osc_strength : Option ℚ
deriving DecidableEq

/-- The scanner state of `parse_tddft`: the converged-block flag, the
current multiplicity label, and the two root lists of the result dict. -/
structure TDSt where
  inside : Bool
  state : String
  singlet : List TDRoot
  triplet : List TDRoot
deriving DecidableEq

/-- Initial extractor state (`state = "singlet"`, `inside = False`,
`roots = {"singlet": [], "triplet": []}`). -/
def initTDSt : TDSt where
  inside := false
  state := "singlet"
  singlet := []
  triplet := []

/-- Python `roots[state].append(root)`: the label is always one of the two
dict keys; anything else would be a `KeyError`. -/
def tdAppendRoot (st : TDSt) (root : TDRoot) : Except String TDSt :=
  if st.state == "singlet" then pure { st with singlet := st.singlet ++ [root] }
  else if st.state == "triplet" then pure { st with triplet := st.triplet ++ [root] }
  else Except.error "KeyError"

/-- Python `roots[state][-1]["osc_strength"] = osc`: write on the most
recently appended root under the current label. -/
def tdSetLastOsc (st : TDSt) (osc : ℚ) : Except String TDSt :=
  if st.state == "singlet" then do
    let l ← pyUpdateE st.singlet (-1) (fun rt => { rt with osc_strength := some osc })
    pure { st with singlet := l }
  else if st.state == "triplet" then do
    let l ← pyUpdateE st.triplet (-1) (fun rt => { rt with osc_strength := some osc })
    pure { st with triplet := l }
  else Except.error "KeyError"

/-- Source lines 588-609: processing of one line of the raw log (each
occurrence of the stripped line spelled out, mirroring the single
`line = lines.pop(0).strip()` of the source). -/
def tddftStep (st : TDSt) (rawLine : String) : Except String TDSt := do
  if strContains (pyStrip rawLine) "Convergence criterion met" then
    pure { st with inside := true }
  else if strContains (pyStrip rawLine) "Excited state energy" then
    pure { st with inside := false }
  else if strContains (pyStrip rawLine) "singlet excited" then
    pure { st with state := "singlet" }
  else if strContains (pyStrip rawLine) "triplet excited" then
    pure { st with state := "triplet" }
  else if (st.inside && strContains (pyStrip rawLine) "Root" &&
      strContains (pyStrip rawLine) "eV") then do
    let t ← pyGetE (pySplitWs (pyStrip rawLine)) (-2)
    let q ← toFloatE t
    tdAppendRoot st (TDRoot.mk q none)
  else if (st.inside && strContains (pyStrip rawLine) "Dipole Oscillator Strength") then do
    let t ← pyGetE (pySplitWs (pyStrip rawLine)) (-1)
    let osc ← toFloatE t
    tdSetLastOsc st osc
  else pure st

/-- Source lines 569-611: `NwOutput.parse_tddft` over the entire raw text. -/
def parse_tddft (raw : String) : Except String TDSt :=
  (pySplitStr raw "\n").foldlM tddftStep initTDSt

/-! ## Spectrum synthesizer (`NwOutput.get_excitation_spectrum`,
source lines 613-654) -/

/-- The synthesized spectrum.  The Python `y` values are
`yUnscaled[i] * (gamma / π) * de`; the factor `gamma / π * de` involves
the irrational `np.pi`, so it is kept symbolic through the recorded
`gamma` and `de` while the exact rational sums are in `yUnscaled`.
`effWidth` records the effective broadening width
`max(width, 2 * grid spacing)` actually used. -/
structure ExcitationSpectrum where
  x : List ℚ
  yUnscaled : List ℚ
  gamma : ℚ
  de : ℚ
  effWidth : ℚ
deriving DecidableEq

/-- Source lines 613-654: grid construction and truncated-Lorentzian
accumulation from the singlet roots.  `en[0]`/`en[-1]` index the root
list in log order; a missing `osc_strength` key raises `KeyError`;
`npoints = 0` or `npoints = 1` raises `ZeroDivisionError` in the two
divisions. -/
def get_excitation_spectrum (raw : String) (width : ℚ) (npoints : ℕ) :
    Except String ExcitationSpectrum := do
  let roots ← parse_tddft raw
  let data := roots.singlet
  let en := data.map TDRoot.energy
  let osc ← data.mapM (fun d =>
    match d.osc_strength with
    | some o => pure o
    | none => Except.error "KeyError: osc_strength")
  let e0 ← pyGetE en 0
  let eLast ← pyGetE en (-1)
  let epad := 20 * width
  let emin := e0 - epad
  let emax := eLast + epad
  if npoints = 0 then Except.error "ZeroDivisionError: division by zero"
  else do
    let de := (emax - emin) / (npoints : ℚ)
    let width1 := max width (2 * de)
    let energies := (List.range npoints).map (fun ie : ℕ => emin + (ie : ℚ) * de)
    let cutoff := 20 * width1
    let gamma := (1 / 2 : ℚ) * width1
    let gammaSqrd := gamma * gamma
    let eN ← pyGetE energies (-1)
    let eZ ← pyGetE energies 0
    if npoints = 1 then Except.error "ZeroDivisionError: float division by zero"
    else do
      let de1 := (eN - eZ) / ((npoints : ℚ) - 1)
      let pairs := en.zip osc
      let tvals := energies.map (fun energy =>
        (pairs.filter (fun p => |energy - p.1| ≤ cutoff)).foldl
          (fun acc p => acc + p.2 / ((energy - p.1) * (energy - p.1) + gammaSqrd)) 0)
      pure (ExcitationSpectrum.mk energies tvals gamma de1 width1)

/-! ## Document splitter and preamble parser
(`NwOutput.__init__` lines 550-567 and `_parse_preamble` lines 656-663;
the file read by `zopen` is an external collaborator, so the model takes
the raw text) -/

/-- The decoded document: the preamble mapping and the per-job records. -/
structure NwDoc where
  job_info : List (String × String)
  data : List JobRecord

/-- Source lines 656-663: `key = value` extraction; the key is the text
before the first `=`, the value the text after the last `=`. -/
def parse_preamble (preamble : String) : List (String × String) :=
  (pySplitStr preamble "\n").foldl (fun info line =>
    let toks := pySplitStr line "="
    if toks.length > 1 then
      dictSet info (pyStrip (toks.getD 0 "")) (pyStrip (toks.getD (toks.length - 1) ""))
    else info) []

/-- Source lines 550-567: split on the job-boundary marker, drop a final
citation chunk, pop the preamble, decode every remaining chunk.  Popping
from an empty chunk list raises `IndexError`. -/
def nwOutput (data : String) : Except String NwDoc := do
  let chunks := pySplitStr data "NWChem Input Module"
  let lastChunk ← pyGetE chunks (-1)
  let chunks1 := if strContains lastChunk "CITATION" then chunks.dropLast else chunks
  match chunks1 with
  | [] => Except.error "IndexError: pop from empty list"
  | preamble :: rest => do
    let jobs ← rest.mapM parse_job
    pure (NwDoc.mk (parse_preamble preamble) jobs)

/-! ## Helper lemmas -/

/-- DecidableEq for `Except`, for concrete evaluations. -/
def exceptDecEq {e a : Type} [DecidableEq e] [DecidableEq a] : DecidableEq (Except e a)
  | .error x, .error y =>
    if h : x = y then isTrue (by rw [h]) else isFalse (by intro hc; cases hc; exact h rfl)
  | .error _, .ok _ => isFalse (by intro hc; cases hc)
  | .ok _, .error _ => isFalse (by intro hc; cases hc)
  | .ok x, .ok y =>
    if h : x = y then isTrue (by rw [h]) else isFalse (by intro hc; cases hc; exact h rfl)

instance {e a : Type} [DecidableEq e] [DecidableEq a] : DecidableEq (Except e a) := exceptDecEq

/-- A `mapM` over `Except` whose body always succeeds is the `map` of the
value function. -/
theorem mapM_ok_of_forall {α β : Type} (f : α → Except String β) (g : α → β) :
    ∀ l : List α, (∀ a ∈ l, f a = .ok (g a)) → l.mapM f = .ok (l.map g) := by
  intro l h
  induction l with
  | nil => rfl
  | cons a t ih =>
    rw [List.mapM_cons, h a (by simp), ih (fun x hx => h x (by simp [hx]))]
    rfl

/-- The row produced by `symmHess` for index `ii` when every read
succeeds. -/
def symmRow (h : List (List ℚ)) (ii : ℕ) : List ℚ :=
  h.getD ii [] ++
    (List.range' (ii + 1) (h.length - (ii + 1))).map (fun jj => (h.getD jj []).getD ii 0)

/-- Flatten one displacement triple back to the scalar stream. -/
def tripleToList {α : Type} (t : α × α × α) : List α := [t.1, t.2.1, t.2.2]

theorem regroup3_complete {α : Type} :
    ∀ (n : ℕ) (l : List α), l.length = 3 * n →
      (regroup3 l).length = n ∧ (regroup3 l).flatMap tripleToList = l := by
  intro n
  induction n with
  | zero =>
    intro l hl
    have : l = [] := List.eq_nil_of_length_eq_zero (by omega)
    subst this
    exact ⟨rfl, rfl⟩
  | succ m ih =>
    intro l hl
    match l with
    | [] => simp only [List.length_nil] at hl; omega
    | [a] => simp only [List.length_cons, List.length_nil] at hl; omega
    | [a, b] => simp only [List.length_cons, List.length_nil] at hl; omega
    | a :: b :: c :: rest =>
      have hr : rest.length = 3 * m := by
        simp only [List.length_cons] at hl
        omega
      have := ih rest hr
      refine ⟨?_, ?_⟩
      · simp only [regroup3, List.length_cons, this.1]
      · simp only [regroup3, List.flatMap_cons, tripleToList, this.2]
        rfl

theorem symmHess_ok (h : List (List ℚ))
    (hshape : ∀ i, i < h.length → (h.getD i []).length = i + 1) :
    symmHess h = .ok ((List.range h.length).map (symmRow h)) := by
  unfold symmHess
  apply mapM_ok_of_forall
  intro ii hii
  have hiin : ii < h.length := List.mem_range.mp hii
  have hinner : (List.range' (ii + 1) (h.length - (ii + 1))).mapM (fun jj =>
      match (h.getD jj []).get? ii with
      | some v => pure v
      | none => Except.error "IndexError: list index out of range") =
      .ok ((List.range' (ii + 1) (h.length - (ii + 1))).map
        (fun jj => (h.getD jj []).getD ii 0)) := by
    apply mapM_ok_of_forall
    intro jj hjj
    have hb := List.mem_range'_1.mp hjj
    have hjn : jj < h.length := by omega
    have hlen : ii < (h.getD jj []).length := by
      rw [hshape jj hjn]; omega
    rw [List.get?_eq_get hlen, List.getD_eq_get _ _ hlen]
    rfl
  rw [hinner]
  rfl

theorem symmRow_length (h : List (List ℚ))
    (hshape : ∀ i, i < h.length → (h.getD i []).length = i + 1)
    (i : ℕ) (hi : i < h.length) : (symmRow h i).length = h.length := by
  unfold symmRow
  rw [List.length_append, hshape i hi, List.length_map, List.length_range']
  omega

theorem symmRow_getD_le (h : List (List ℚ))
    (hshape : ∀ i, i < h.length → (h.getD i []).length = i + 1)
    (i j : ℕ) (hi : i < h.length) (hj : j ≤ i) :
    (symmRow h i).getD j 0 = (h.getD i []).getD j 0 := by
  unfold symmRow
  exact List.getD_append _ _ _ _ (by rw [hshape i hi]; omega)

theorem symmRow_getD_gt (h : List (List ℚ))
    (hshape : ∀ i, i < h.length → (h.getD i []).length = i + 1)
    (i j : ℕ) (hi : i < h.length) (hij : i < j) (hj : j < h.length) :
    (symmRow h i).getD j 0 = (h.getD j []).getD i 0 := by
  unfold symmRow
  rw [List.getD_append_right _ _ _ _ (by rw [hshape i hi]; omega)]
  rw [hshape i hi]
  have hlt : j - (i + 1) <
      ((List.range' (i + 1) (h.length - (i + 1))).map
        (fun jj => (h.getD jj []).getD i 0)).length := by
    rw [List.length_map, List.length_range']
    omega
  rw [List.getD_eq_getElem _ _ hlt, List.getElem_map, List.getElem_range'_1]
  congr 2
  omega

/-! ## Claim theorems -/

/-- C1: for every job chunk in which a mass-weighted (normal or projected)
hessian block was fully read — so that row `i` of the accumulated matrix
holds exactly the `i+1` lower-triangle-plus-diagonal columns the engine
prints — the symmetrization step of `_parse_job` (applied by `parse_job`
to both `hessian` and `projected_hessian` through `symmIfNonempty`)
succeeds and yields a square matrix that is exactly symmetric:
`m[i][j] = m[j][i]` for all `i, j` within the dimension. -/
theorem C1_fully_read_hessian_symmetric (h : List (List ℚ))
    (hshape : ∀ i, i < h.length → (h.getD i []).length = i + 1) :
    ∃ m, symmHess h = .ok m ∧
      (h ≠ [] → symmIfNonempty (some h) = .ok (some m)) ∧
      m.length = h.length ∧
      (∀ i, i < h.length → (m.getD i []).length = h.length) ∧
      (∀ i j, i < h.length → j < h.length →
        (m.getD i []).getD j 0 = (m.getD j []).getD i 0) := by
  have hget : ∀ i, i < h.length →
      ((List.range h.length).map (symmRow h)).getD i [] = symmRow h i := by
    intro i hi
    have hlt : i < ((List.range h.length).map (symmRow h)).length := by
      rw [List.length_map, List.length_range]
      exact hi
    rw [List.getD_eq_getElem _ _ hlt, List.getElem_map, List.getElem_range]
  refine ⟨(List.range h.length).map (symmRow h), symmHess_ok h hshape, ?_, ?_, ?_, ?_⟩
  · intro hne
    cases h with
    | nil => exact absurd rfl hne
    | cons hh t =>
      show (symmHess (hh :: t)).map some = _
      rw [symmHess_ok (hh :: t) hshape]
      rfl
  · rw [List.length_map, List.length_range]
  · intro i hi
    rw [hget i hi]
    exact symmRow_length h hshape i hi
  · intro i j hi hj
    rw [hget i hi, hget j hj]
    rcases Nat.lt_trichotomy i j with hij | hij | hij
    · rw [symmRow_getD_gt h hshape i j hi hij hj,
        symmRow_getD_le h hshape j i hj (Nat.le_of_lt hij)]
    · subst hij
      rfl
    · rw [symmRow_getD_le h hshape i j hi (Nat.le_of_lt hij),
        symmRow_getD_gt h hshape j i hj hij hi]

/-- Witness for C1 at the concrete fully-read lower-triangular matrix
`[[1], [2, 3], [4, 5, 6]]`. -/
theorem C1_fully_read_hessian_symmetric_witness :
    ∃ m, symmHess [[1], [2, 3], [4, 5, 6]] = .ok m ∧
      (([[1], [2, 3], [4, 5, 6]] : List (List ℚ)) ≠ [] →
        symmIfNonempty (some [[1], [2, 3], [4, 5, 6]]) = .ok (some m)) ∧
      m.length = ([[1], [2, 3], [4, 5, 6]] : List (List ℚ)).length ∧
      (∀ i, i < ([[1], [2, 3], [4, 5, 6]] : List (List ℚ)).length →
        (m.getD i []).length = ([[1], [2, 3], [4, 5, 6]] : List (List ℚ)).length) ∧
      (∀ i j, i < ([[1], [2, 3], [4, 5, 6]] : List (List ℚ)).length →
        j < ([[1], [2, 3], [4, 5, 6]] : List (List ℚ)).length →
        (m.getD i []).getD j 0 = (m.getD j []).getD i 0) :=
  C1_fully_read_hessian_symmetric [[1], [2, 3], [4, 5, 6]] (by decide)

/-- C3: a collected vibrational mode whose flat displacement stream is
complete (one scalar per coordinate, `3 × atom_count` of them) is
regrouped by the post-scan step of `parse_job` (`regroup3`, the model of
`zip(*[iter(mode)] * 3)`) into exactly `atom_count` consecutive `(x, y, z)`
triples whose concatenation restores the stream — no leftover scalar. -/
theorem C3_displacements_regroup (mode : List ℚ) (atom_count : ℕ)
    (hlen : mode.length = 3 * atom_count) :
    (regroup3 mode).length = atom_count ∧
      (regroup3 mode).flatMap tripleToList = mode :=
  regroup3_complete atom_count mode hlen

/-- Witness for C3 at the concrete stream `[1, 2, 3, 4, 5, 6]` with two
atoms. -/
theorem C3_displacements_regroup_witness :
    (regroup3 [(1 : ℚ), 2, 3, 4, 5, 6]).length = 2 ∧
      (regroup3 [(1 : ℚ), 2, 3, 4, 5, 6]).flatMap tripleToList = [1, 2, 3, 4, 5, 6] :=
  C3_displacements_regroup [1, 2, 3, 4, 5, 6] 2 (by decide)

/-- Bind of a successful `Except` computation. -/
theorem exceptBind_ok {α β : Type} (a : α) (f : α → Except String β) :
    (Except.ok a >>= f) = f a := rfl

/-- Bind of a failed `Except` computation. -/
theorem exceptBind_error {α β : Type} (m : String) (f : α → Except String β) :
    ((Except.error m : Except String α) >>= f) = Except.error m := rfl

theorem splitOnFuel_ne_nil (sep : List Char) :
    ∀ (fuel : ℕ) (l : List Char), splitOnFuel sep fuel l ≠ [] := by
  intro fuel
  induction fuel with
  | zero => intro l; simp [splitOnFuel]
  | succ f ih =>
    intro l
    match l with
    | [] => simp [splitOnFuel]
    | c :: cs =>
      unfold splitOnFuel
      split
      · simp
      · cases hh : splitOnFuel sep f cs with
        | nil => simp
        | cons p ps => simp

theorem splitOnFuel_singleton (sep : List Char) :
    ∀ (fuel : ℕ) (l m : List Char), splitOnFuel sep fuel l = [m] → m = l := by
  intro fuel
  induction fuel with
  | zero =>
    intro l m hm
    simp only [splitOnFuel] at hm
    exact (List.cons.injEq .. ▸ hm).1.symm
  | succ f ih =>
    intro l m hm
    match l with
    | [] =>
      simp only [splitOnFuel] at hm
      exact (List.cons.injEq .. ▸ hm).1.symm
    | c :: cs =>
      unfold splitOnFuel at hm
      split at hm
      · have h2 := List.cons.injEq .. ▸ hm
        exact absurd h2.2 (splitOnFuel_ne_nil sep f _)
      · revert hm
        cases hh : splitOnFuel sep f cs with
        | nil => exact absurd hh (splitOnFuel_ne_nil sep f cs)
        | cons p ps =>
          intro hm
          have h2 := List.cons.injEq .. ▸ hm
          have hps : ps = [] := h2.2
          have hp : p = cs := ih cs p (by rw [hh, hps])
          rw [h2.1.symm, hp]

theorem splitOnCS_of_not_contains (sep l : List Char)
    (hnc : ¬ 1 < (splitOnCS sep l).length) : splitOnCS sep l = [l] := by
  cases hh : splitOnCS sep l with
  | nil => exact absurd hh (splitOnFuel_ne_nil sep l.length l)
  | cons p ps =>
    cases ps with
    | nil => rw [splitOnFuel_singleton sep l.length l p hh]
    | cons q qs => rw [hh] at hnc; simp at hnc

/-- C5 counterexample: the claim "for every log text containing zero
occurrences of the job-boundary marker, constructing the document succeeds
without exception and yields a document with zero jobs (and an empty
preamble-derived value)" fails on the code at two concrete inputs:
the text `"CITATION"` has no boundary marker, but the citation chunk is
popped and then popping the preamble from the now-empty list raises
`IndexError`; and the text `"a = b"` succeeds with zero jobs but a
non-empty preamble mapping. -/
theorem C5_counterexample :
    nwOutput "CITATION" = .error "IndexError: pop from empty list" ∧
      nwOutput "a = b" = .ok (NwDoc.mk [("a", "b")] []) := by
  constructor
  · with_unfolding_all rfl
  · with_unfolding_all rfl

/-- C5 (amended): for every log text containing zero occurrences of the
job-boundary marker and no occurrence of the citation marker `"CITATION"`,
constructing the document succeeds and yields zero jobs, with the
preamble mapping parsed from the entire text (not necessarily empty). -/
theorem C5_no_marker_zero_jobs (data : String)
    (hm : strContains data "NWChem Input Module" = false)
    (hc : strContains data "CITATION" = false) :
    nwOutput data = .ok (NwDoc.mk (parse_preamble data) []) := by
  have hsplit : splitOnCS ("NWChem Input Module").data data.data = [data.data] := by
    apply splitOnCS_of_not_contains
    simpa [strContains] using hm
  have hps : pySplitStr data "NWChem Input Module" = [data] := by
    unfold pySplitStr
    rw [hsplit]
    rfl
  have hget : pyGetE [data] (-1 : ℤ) = Except.ok data := rfl
  unfold nwOutput
  rw [hps]
  simp only [hget, exceptBind_ok, hc, Bool.false_eq_true, if_false, List.mapM_nil]
  rfl

/-- Concrete basis-summary state: inside the block with the header of the
claim already parsed (5th column dropped, names lower-cased). -/
def c9HeaderSt : JobSt :=
  { initJobSt with
      parse_bset := true
      bset_header := ["tag", "description", "shells", "functions", "type"] }

/-- C9 counterexample: the row `" -1  0.5"` is not a row of dashes, so by
the claim it should map its first token `"-1"` to a field mapping; the
code instead skips every row whose first token merely begins with a dash
(`re.match(r"-+", tokens[0])` tests a prefix), leaving `basis_set`
unchanged and without the key `"-1"`. -/
theorem C9_counterexample :
    bsetStep c9HeaderSt " -1  0.5" = .ok c9HeaderSt ∧
      c9HeaderSt.basis_set = [] ∧
      dictSet c9HeaderSt.basis_set "-1"
          ((((c9HeaderSt.bset_header.drop 1).zip ["0.5"]).foldl
            (fun d kv => dictSet d kv.1 kv.2) [])) ≠ c9HeaderSt.basis_set := by
  refine ⟨by with_unfolding_all rfl, rfl, by with_unfolding_all decide⟩

/-- C9 (amended): in the basis-summary block, for a non-blank row:
a header row beginning with the token `Tag` (and long enough for the pop)
re-defines the column names with its 5th column dropped and the rest
lower-cased; a row whose first token begins with a dash (in particular a
row of dashes) is ignored; every other row maps its first token to the
zip of the remaining header names with its remaining string tokens.
The claim's concrete example holds: header
`"Tag Description Shells Functions Other Type"` followed by data row
`"C description 2 3 s"` maps `"C"` to a mapping over exactly
description/shells/functions/type, the dropped field excluded. -/
theorem C9_bset_rows (st : JobSt) (line : String) (tok0 : String)
    (rest : List String)
    (hnb : (pyStrip line == "") = false)
    (hsplit : pySplitWs line = tok0 :: rest) :
    (tok0 = "Tag" → 4 < rest.length + 1 →
      bsetStep st line = .ok { st with
        bset_header := (((tok0 :: rest).take 4 ++ (tok0 :: rest).drop 5).map pyLower) }) ∧
    (tok0 ≠ "Tag" → startsWithDash tok0 = true → bsetStep st line = .ok st) ∧
    (tok0 ≠ "Tag" → startsWithDash tok0 = false →
      bsetStep st line = .ok { st with
        basis_set := dictSet st.basis_set tok0
          (((st.bset_header.drop 1).zip rest).foldl (fun d kv => dictSet d kv.1 kv.2) []) }) ∧
    (bsetStep { initJobSt with parse_bset := true }
        "Tag  Description  Shells  Functions  Other  Type" = .ok c9HeaderSt ∧
      bsetStep c9HeaderSt "C  6-31g  2  3  s" = .ok { c9HeaderSt with
        basis_set := [("C", [("description", "6-31g"), ("shells", "2"),
          ("functions", "3"), ("type", "s")])] }) := by
  refine ⟨?_, ?_, ?_, by with_unfolding_all rfl, by with_unfolding_all rfl⟩
  · intro htag hlen
    subst htag
    unfold bsetStep
    rw [hnb, hsplit]
    simp only [Bool.false_eq_true, if_false]
    have hcond : (("Tag" : String) ≠ "Tag" && !(startsWithDash "Tag")) = false := by
      simp
    rw [hcond]
    simp only [Bool.false_eq_true, if_false]
    rw [if_pos (show (("Tag" : String) == "Tag") = true from rfl)]
    have hpop : pyPopAt ("Tag" :: rest) 4 =
        .ok (("Tag" :: rest).take 4 ++ ("Tag" :: rest).drop 5) := by
      unfold pyPopAt
      rw [if_pos (by simp only [List.length_cons]; omega)]
      rfl
    rw [hpop]
    rfl
  · intro hne hdash
    unfold bsetStep
    rw [hnb, hsplit]
    simp only [Bool.false_eq_true, if_false]
    have hcond : (tok0 ≠ "Tag" && !(startsWithDash tok0)) = false := by
      rw [hdash]
      simp
    rw [hcond]
    have htag : (tok0 == "Tag") = false := by
      simp only [beq_eq_false_iff_ne, ne_eq]
      exact hne
    simp only [Bool.false_eq_true, if_false, htag]
    rfl
  · intro hne hdash
    unfold bsetStep
    rw [hnb, hsplit]
    simp only [Bool.false_eq_true, if_false]
    have hcond : (tok0 ≠ "Tag" && !(startsWithDash tok0)) = true := by
      rw [hdash]
      simp [hne]
    rw [hcond]
    rfl

/-- Witness for C9 (amended): the three row kinds at concrete rows inside
a concrete block state. -/
theorem C9_bset_rows_witness :
    (("dummy" : String) = "Tag" → 4 < (["x"] : List String).length + 1 →
      bsetStep c9HeaderSt "dummy x" = .ok { c9HeaderSt with
        bset_header := ((("dummy" :: ["x"]).take 4 ++ ("dummy" :: ["x"]).drop 5).map pyLower) }) ∧
    (("dummy" : String) ≠ "Tag" → startsWithDash "dummy" = true →
      bsetStep c9HeaderSt "dummy x" = .ok c9HeaderSt) ∧
    (("dummy" : String) ≠ "Tag" → startsWithDash "dummy" = false →
      bsetStep c9HeaderSt "dummy x" = .ok { c9HeaderSt with
        basis_set := dictSet c9HeaderSt.basis_set "dummy"
          (((c9HeaderSt.bset_header.drop 1).zip ["x"]).foldl
            (fun d kv => dictSet d kv.1 kv.2) []) }) ∧
    (bsetStep { initJobSt with parse_bset := true }
        "Tag  Description  Shells  Functions  Other  Type" = .ok c9HeaderSt ∧
      bsetStep c9HeaderSt "C  6-31g  2  3  s" = .ok { c9HeaderSt with
        basis_set := [("C", [("description", "6-31g"), ("shells", "2"),
          ("functions", "3"), ("type", "s")])] }) :=
  C9_bset_rows c9HeaderSt "dummy x" "dummy" ["x"] (by with_unfolding_all rfl)
    (by with_unfolding_all rfl)

/-- Witness for C5 (amended) at the concrete marker-free, citation-free
text `"x = y"`. -/
theorem C5_no_marker_zero_jobs_witness :
    nwOutput "x = y" = .ok (NwDoc.mk (parse_preamble "x = y") []) :=
  C5_no_marker_zero_jobs "x = y" (by with_unfolding_all rfl) (by with_unfolding_all rfl)

/-- C10: decoding the job chunk consisting of a
`MASS-WEIGHTED PROJECTED HESSIAN` header followed by the non-blank line
`"foo"`, with no preceding `MASS-WEIGHTED NUCLEAR HESSIAN` block, raises
(`nat3 = len(hessian)` is evaluated while `hessian` is still `None`, a
`TypeError`) instead of returning a job record. -/
theorem C10_projected_hessian_without_normal_raises :
    parse_job "MASS-WEIGHTED PROJECTED HESSIAN\nfoo" =
      .error "TypeError: object of type NoneType has no len()" := by
  with_unfolding_all rfl

/-- C2 counterexample: the per-job decode is not total.  The single-line
chunk `"Frequency x"` enters the normal-frequency header branch and calls
`float("x")`, which raises `ValueError`; the decode aborts instead of
skipping the malformed line. -/
theorem C2_counterexample :
    parse_job "Frequency x" = .error "ValueError: could not convert string to float" := by
  with_unfolding_all rfl

/-- C2 (amended): the skip-malformed-lines policy holds where the code
implements it — inside a hessian block, a non-blank, non-separator row
whose first token fails `int(...)` or whose second token lacks a decimal
point is skipped with the accumulated matrix unchanged and the block
still active — but the per-job decode is not total: some malformed lines
(for example an unparseable frequency value, see the counterexample)
abort the decode. -/
theorem C2_hessian_row_skips (hess : List (List ℚ)) (line : String)
    (hnb : (pyStrip line == "") = false)
    (hnd : strContains line "----------" = false) :
    (pyInt? ((pySplitWs (pyStrip line)).getD 0 "") = none →
      hessRowsStep hess line = .ok (hess, true)) ∧
    (∀ row : ℤ, pyInt? ((pySplitWs (pyStrip line)).getD 0 "") = some row →
      isfloatstring ((pySplitWs (pyStrip line)).getD 1 "") = true →
      hessRowsStep hess line = .ok (hess, true)) := by
  have hsep : (hess.length > 0 && strContains line "----------") = false := by
    rw [hnd, Bool.and_false]
  constructor
  · intro hint
    unfold hessRowsStep
    rw [hnb, hsep]
    simp only [Bool.false_eq_true, if_false]
    split
    · rw [hint]
      rfl
    · rfl
  · intro row hint hfs
    unfold hessRowsStep
    rw [hnb, hsep]
    simp only [Bool.false_eq_true, if_false]
    split
    · rw [hint]
      simp only [hfs]
      rfl
    · rfl

/-- Witness for C2 (amended): inside a hessian block holding one row,
the row `"xx 1.0"` (non-integer index) and the row `"2 17"` (second token
without a decimal point) are both skipped. -/
theorem C2_hessian_row_skips_witness :
    (pyInt? ((pySplitWs (pyStrip "xx 1.0")).getD 0 "") = none →
      hessRowsStep [[1]] "xx 1.0" = .ok ([[1]], true)) ∧
    (∀ row : ℤ, pyInt? ((pySplitWs (pyStrip "xx 1.0")).getD 0 "") = some row →
      isfloatstring ((pySplitWs (pyStrip "xx 1.0")).getD 1 "") = true →
      hessRowsStep [[1]] "xx 1.0" = .ok ([[1]], true)) :=
  C2_hessian_row_skips [[1]] "xx 1.0" (by with_unfolding_all rfl)
    (by with_unfolding_all rfl)

theorem set_append_last {α : Type} (l : List α) (a v : α) :
    (l ++ [a]).set l.length v = l ++ [v] := by
  induction l with
  | nil => rfl
  | cons b t ih =>
    simp only [List.cons_append, List.set, List.length_cons]
    rw [show t.append [a] = t ++ [a] from rfl, ih]

theorem pyGetE_last {α : Type} (l : List α) (a : α) : pyGetE (l ++ [a]) (-1) = .ok a := by
  have hif : (if (-1 : ℤ) < 0 then (-1 : ℤ) + ((l ++ [a]).length : ℤ) else -1) =
      (l.length : ℤ) := by
    rw [if_pos (by norm_num)]
    simp only [List.length_append, List.length_cons, List.length_nil]
    push_cast
    ring
  have hc : ((l.length : ℤ)).toNat < (l ++ [a]).length ∧ (0 : ℤ) ≤ (l.length : ℤ) := by
    constructor
    · simp only [Int.toNat_natCast, List.length_append, List.length_cons, List.length_nil]
      omega
    · exact Int.natCast_nonneg _
  unfold pyGetE
  simp only [hif]
  rw [dif_pos hc]
  have hval : (l ++ [a]).get ⟨((l.length : ℤ)).toNat, hc.1⟩ = a := by
    rw [List.get_eq_getElem]
    have hidx : ((l.length : ℤ)).toNat = l.length := Int.toNat_natCast _
    simp only [hidx]
    rw [List.getElem_append_right (Nat.le_refl _)]
    simp
  rw [hval]
  rfl

theorem pyUpdateE_last {α : Type} (l : List α) (a : α) (f : α → α) :
    pyUpdateE (l ++ [a]) (-1) f = .ok (l ++ [f a]) := by
  have hif : (if (-1 : ℤ) < 0 then (-1 : ℤ) + ((l ++ [a]).length : ℤ) else -1) =
      (l.length : ℤ) := by
    rw [if_pos (by norm_num)]
    simp only [List.length_append, List.length_cons, List.length_nil]
    push_cast
    ring
  have hc : ((l.length : ℤ)).toNat < (l ++ [a]).length ∧ (0 : ℤ) ≤ (l.length : ℤ) := by
    constructor
    · simp only [Int.toNat_natCast, List.length_append, List.length_cons, List.length_nil]
      omega
    · exact Int.natCast_nonneg _
  have hval : (l ++ [a]).get ⟨((l.length : ℤ)).toNat, hc.1⟩ = a := by
    rw [List.get_eq_getElem]
    have hidx : ((l.length : ℤ)).toNat = l.length := Int.toNat_natCast _
    simp only [hidx]
    rw [List.getElem_append_right (Nat.le_refl _)]
    simp
  unfold pyUpdateE
  simp only [hif]
  rw [dif_pos hc, hval]
  have hidx : ((l.length : ℤ)).toNat = l.length := Int.toNat_natCast _
  simp only [hidx, set_append_last]
  rfl

/-- The idle-branch cascade never touches `energies`, `time` or
`parse_time`. -/
theorem idleChain_frame (output : String) (st : JobSt) (line : String) (st' : JobSt)
    (h : idleChain output st line = .ok st') :
    st'.energies = st.energies ∧ st'.time = st.time ∧ st'.parse_time = st.parse_time := by
  unfold idleChain at h
  cases hb1 : strContains line "Geometry \"geometry\"" with
  | true =>
    rw [if_pos hb1] at h
    injection h with h1
    subst h1
    exact ⟨rfl, rfl, rfl⟩
  | false =>
  rw [if_neg (ne_true_of_eq_false hb1)] at h
  cases hb2 : strContains line "Summary of \"ao basis\"" with
  | true =>
    rw [if_pos hb2] at h
    injection h with h1
    subst h1
    exact ⟨rfl, rfl, rfl⟩
  | false =>
  rw [if_neg (ne_true_of_eq_false hb2)] at h
  cases hb3 : strContains line "P.Frequency" with
  | true =>
    rw [if_pos hb3] at h
    revert h
    cases hmm : ((pySplitWs (pyStrip line)).drop 1).mapM (fun f => do
        let q ← toFloatE f
        pure (q, ([] : List ℚ))) with
    | error e =>
      intro h
      rw [exceptBind_error] at h
      cases h
    | ok newModes =>
      intro h
      rw [exceptBind_ok] at h
      injection h with h1
      subst h1
      exact ⟨rfl, rfl, rfl⟩
  | false =>
  rw [if_neg (ne_true_of_eq_false hb3)] at h
  cases hb4 : strContains line "Frequency" with
  | true =>
    rw [if_pos hb4] at h
    cases hb5 : ((pySplitWs (pyStrip line)).length > 1 : Bool) &&
        ((pySplitWs (pyStrip line)).getD 0 "" == "Frequency") with
    | true =>
      rw [if_pos hb5] at h
      revert h
      cases hmm : ((pySplitWs (pyStrip line)).drop 1).mapM (fun f => do
          let q ← toFloatE f
          pure (q, ([] : List ℚ))) with
      | error e =>
        intro h
        rw [exceptBind_error] at h
        cases h
      | ok newModes =>
        intro h
        rw [exceptBind_ok] at h
        injection h with h1
        subst h1
        exact ⟨rfl, rfl, rfl⟩
    | false =>
      rw [if_neg (ne_true_of_eq_false hb5)] at h
      injection h with h1
      subst h1
      exact ⟨rfl, rfl, rfl⟩
  | false =>
  rw [if_neg (ne_true_of_eq_false hb4)] at h
  cases hb6 : strContains line "MASS-WEIGHTED NUCLEAR HESSIAN" with
  | true =>
    rw [if_pos hb6] at h
    injection h with h1
    subst h1
    exact ⟨rfl, rfl, rfl⟩
  | false =>
  rw [if_neg (ne_true_of_eq_false hb6)] at h
  cases hb7 : strContains line "MASS-WEIGHTED PROJECTED HESSIAN" with
  | true =>
    rw [if_pos hb7] at h
    injection h with h1
    subst h1
    exact ⟨rfl, rfl, rfl⟩
  | false =>
  rw [if_neg (ne_true_of_eq_false hb7)] at h
  cases hb8 : strContains line "atom               coordinates                        gradient" with
  | true =>
    rw [if_pos hb8] at h
    injection h with h1
    subst h1
    exact ⟨rfl, rfl, rfl⟩
  | false =>
  rw [if_neg (ne_true_of_eq_false hb8)] at h
  cases hb9 : (st.job_type == "") && pyStartsWith (pyStrip line) "NWChem" with
  | true =>
    rw [if_pos hb9] at h
    injection h with h1
    subst h1
    exact ⟨rfl, rfl, rfl⟩
  | false =>
  rw [if_neg (ne_true_of_eq_false hb9)] at h
  revert h
  cases hcm : reSearch corrections_patt line with
  | none =>
    intro h
    injection h with h1
    subst h1
    exact ⟨rfl, rfl, rfl⟩
  | some caps =>
    match caps with
    | [] =>
      intro h
      injection h with h1
      subst h1
      exact ⟨rfl, rfl, rfl⟩
    | [k] =>
      intro h
      injection h with h1
      subst h1
      exact ⟨rfl, rfl, rfl⟩
    | k :: v :: rest =>
      show ((toFloatE v) >>= fun q =>
          pure { st with corrections := dictSet st.corrections k (q * kJmol_to_eV_atom) }) =
            Except.ok st' →
          st'.energies = st.energies ∧ st'.time = st.time ∧ st'.parse_time = st.parse_time
      cases hq : toFloatE v with
      | error e =>
        intro h
        rw [exceptBind_error] at h
        cases h
      | ok q =>
        intro h
        rw [exceptBind_ok] at h
        injection h with h1
        subst h1
        exact ⟨rfl, rfl, rfl⟩

/-- The tail of the idle branch never touches `energies`, `time` or
`parse_time`. -/
theorem elseTail_frame (output : String) (st : JobSt) (line : String) (st' : JobSt)
    (h : elseTail output st line = .ok st') :
    st'.energies = st.energies ∧ st'.time = st.time ∧ st'.parse_time = st.parse_time := by
  unfold elseTail at h
  split at h
  · injection h with h1
    subst h1
    exact ⟨rfl, rfl, rfl⟩
  · exact idleChain_frame output st line st' h

/-- The gas-phase check never touches `time` or `parse_time`. -/
theorem gasStep_frame (st : JobSt) (line : String) (st' : JobSt)
    (h : gasStep st line = .ok st') :
    st'.time = st.time ∧ st'.parse_time = st.parse_time := by
  unfold gasStep at h
  revert h
  cases hg : reSearch energy_gas_patt line with
  | none =>
    intro h
    injection h with h1
    subst h1
    exact ⟨rfl, rfl⟩
  | some caps =>
    match caps with
    | [] =>
      intro h
      injection h with h1
      subst h1
      exact ⟨rfl, rfl⟩
    | v :: rest =>
      show (pyGetE st.energies (-1) >>= fun prev =>
          toFloatE v >>= fun q =>
          pyUpdateE st.energies (-1) (fun _ =>
            PyVal.dict [("cosmo scf", prev), ("gas phase", PyVal.num (q * Ha_to_eV))]) >>=
            fun es => pure { st with energies := es }) = Except.ok st' →
        st'.time = st.time ∧ st'.parse_time = st.parse_time
      cases hp : pyGetE st.energies (-1) with
      | error e =>
        intro h
        rw [exceptBind_error] at h
        cases h
      | ok prev =>
        simp only [exceptBind_ok]
        cases hq : toFloatE v with
        | error e =>
          intro h
          rw [exceptBind_error] at h
          cases h
        | ok q =>
          simp only [exceptBind_ok]
          cases hu : pyUpdateE st.energies (-1) (fun _ =>
              PyVal.dict [("cosmo scf", prev), ("gas phase", PyVal.num (q * Ha_to_eV))]) with
          | error e =>
            intro h
            rw [exceptBind_error] at h
            cases h
          | ok es =>
            simp only [exceptBind_ok]
            intro h
            injection h with h1
            subst h1
            exact ⟨rfl, rfl⟩

/-- The sol-phase check never touches `time` or `parse_time`. -/
theorem solStep_frame (st : JobSt) (line : String) (st' : JobSt)
    (h : solStep st line = .ok st') :
    st'.time = st.time ∧ st'.parse_time = st.parse_time := by
  unfold solStep at h
  revert h
  cases hg : reSearch energy_sol_patt line with
  | none =>
    intro h
    injection h with h1
    subst h1
    exact ⟨rfl, rfl⟩
  | some caps =>
    match caps with
    | [] =>
      intro h
      injection h with h1
      subst h1
      exact ⟨rfl, rfl⟩
    | v :: rest =>
      show (pyGetE st.energies (-1) >>= fun last =>
          (match last with
          | PyVal.dict d =>
            toFloatE v >>= fun q =>
            pyUpdateE st.energies (-1) (fun _ =>
              PyVal.dict (dictSet d "sol phase" (PyVal.num (q * Ha_to_eV)))) >>=
              fun es => pure { st with energies := es }
          | PyVal.num _ =>
            Except.error "TypeError: unsupported operand type for ior")) = Except.ok st' →
        st'.time = st.time ∧ st'.parse_time = st.parse_time
      cases hp : pyGetE st.energies (-1) with
      | error e =>
        intro h
        rw [exceptBind_error] at h
        cases h
      | ok last =>
        simp only [exceptBind_ok]
        match last with
        | PyVal.num x =>
          intro h
          cases h
        | PyVal.dict d =>
          show (toFloatE v >>= fun q =>
              pyUpdateE st.energies (-1) (fun _ =>
                PyVal.dict (dictSet d "sol phase" (PyVal.num (q * Ha_to_eV)))) >>=
                fun es => pure { st with energies := es }) = Except.ok st' →
            st'.time = st.time ∧ st'.parse_time = st.parse_time
          cases hq : toFloatE v with
          | error e =>
            intro h
            rw [exceptBind_error] at h
            cases h
          | ok q =>
            simp only [exceptBind_ok]
            cases hu : pyUpdateE st.energies (-1) (fun _ =>
                PyVal.dict (dictSet d "sol phase" (PyVal.num (q * Ha_to_eV)))) with
            | error e =>
              intro h
              rw [exceptBind_error] at h
              cases h
            | ok es =>
              simp only [exceptBind_ok]
              intro h
              injection h with h1
              subst h1
              exact ⟨rfl, rfl⟩

theorem gasStep_none (st : JobSt) (line : String)
    (hg : reSearch energy_gas_patt line = none) : gasStep st line = .ok st := by
  unfold gasStep
  rw [hg]
  rfl

theorem solStep_none (st : JobSt) (line : String)
    (hs : reSearch energy_sol_patt line = none) : solStep st line = .ok st := by
  unfold solStep
  rw [hs]
  rfl

/-- The gas-phase line replaces the just-appended entry by the two-key
dict holding the previous entry under `"cosmo scf"`. -/
theorem gasStep_converts (st : JobSt) (line : String) (v : String) (rest : List String)
    (es : List PyVal) (prev : PyVal) (q : ℚ)
    (hg : reSearch energy_gas_patt line = some (v :: rest))
    (hen : st.energies = es ++ [prev])
    (hq : toFloatE v = .ok q) :
    gasStep st line = .ok { st with energies := es ++
      [PyVal.dict [("cosmo scf", prev), ("gas phase", PyVal.num (q * Ha_to_eV))]] } := by
  unfold gasStep
  rw [hg]
  show (pyGetE st.energies (-1) >>= fun prev =>
      toFloatE v >>= fun q =>
      pyUpdateE st.energies (-1) (fun _ =>
        PyVal.dict [("cosmo scf", prev), ("gas phase", PyVal.num (q * Ha_to_eV))]) >>=
        fun es => pure { st with energies := es }) = _
  rw [hen, pyGetE_last]
  simp only [exceptBind_ok]
  rw [hq]
  simp only [exceptBind_ok]
  rw [pyUpdateE_last]
  simp only [exceptBind_ok]
  rfl

/-- The sol-phase line adds the `"sol phase"` key to the dict entry at the
end of `energies`. -/
theorem solStep_adds (st : JobSt) (line : String) (v : String) (rest : List String)
    (es : List PyVal) (d : List (String × PyVal)) (q : ℚ)
    (hs : reSearch energy_sol_patt line = some (v :: rest))
    (hen : st.energies = es ++ [PyVal.dict d])
    (hq : toFloatE v = .ok q) :
    solStep st line = .ok { st with energies := es ++
      [PyVal.dict (dictSet d "sol phase" (PyVal.num (q * Ha_to_eV)))] } := by
  unfold solStep
  rw [hs]
  show (pyGetE st.energies (-1) >>= fun last =>
      (match last with
      | PyVal.dict d =>
        toFloatE v >>= fun q =>
        pyUpdateE st.energies (-1) (fun _ =>
          PyVal.dict (dictSet d "sol phase" (PyVal.num (q * Ha_to_eV)))) >>=
          fun es => pure { st with energies := es }
      | PyVal.num _ =>
        Except.error "TypeError: unsupported operand type for ior")) = _
  rw [hen, pyGetE_last]
  simp only [exceptBind_ok]
  show (toFloatE v >>= fun q =>
      pyUpdateE (es ++ [PyVal.dict d]) (-1) (fun _ =>
        PyVal.dict (dictSet d "sol phase" (PyVal.num (q * Ha_to_eV)))) >>=
        fun es1 => pure { st with energies := es1 }) = _
  rw [hq]
  simp only [exceptBind_ok]
  rw [pyUpdateE_last]
  simp only [exceptBind_ok]
  rfl

/-- A total-energy line appends the converted energy and arms the one-shot
timing flag. -/
theorem elseBranch_energy (output : String) (st : JobSt) (line : String)
    (v : String) (rest : List String) (q : ℚ)
    (he : reSearch energy_patt line = some (v :: rest))
    (hq : toFloatE v = .ok q) :
    elseBranch output st line = .ok { st with
      energies := st.energies ++ [PyVal.num (q * Ha_to_eV)], parse_time := true } := by
  unfold elseBranch
  rw [he]
  show (toFloatE v >>= fun q =>
      pure { st with energies := st.energies ++ [PyVal.num (q * Ha_to_eV)],
                     parse_time := true }) = _
  rw [hq]
  simp only [exceptBind_ok]
  rfl

/-- The non-energy path of the idle branch (gas check, sol check,
`elseTail`) preserves `time` and `parse_time`. -/
theorem elsePath_frame (output : String) (st : JobSt) (line : String) (st' : JobSt)
    (h : (gasStep st line >>= fun st1 =>
      solStep st1 line >>= fun st2 => elseTail output st2 line) = .ok st') :
    st'.time = st.time ∧ st'.parse_time = st.parse_time := by
  revert h
  cases h1 : gasStep st line with
  | error e =>
    intro h
    rw [exceptBind_error] at h
    cases h
  | ok st1 =>
    simp only [exceptBind_ok]
    cases h2 : solStep st1 line with
    | error e =>
      intro h
      rw [exceptBind_error] at h
      cases h
    | ok st2 =>
      simp only [exceptBind_ok]
      intro h
      have f1 := gasStep_frame st line st1 h1
      have f2 := solStep_frame st1 line st2 h2
      have f3 := elseTail_frame output st2 line st' h
      exact ⟨f3.2.1.trans (f2.1.trans f1.1), f3.2.2.trans (f2.2.trans f1.2)⟩

/-- The idle branch preserves `time` unconditionally. -/
theorem elseBranch_time (output : String) (st : JobSt) (line : String) (st' : JobSt)
    (h : elseBranch output st line = .ok st') : st'.time = st.time := by
  revert h
  unfold elseBranch
  cases he : reSearch energy_patt line with
  | none =>
    intro h
    exact (elsePath_frame output st line st' h).1
  | some caps =>
    match caps with
    | [] =>
      intro h
      exact (elsePath_frame output st line st' h).1
    | v :: rest =>
      show (toFloatE v >>= fun q =>
          pure { st with energies := st.energies ++ [PyVal.num (q * Ha_to_eV)],
                         parse_time := true }) = Except.ok st' →
        st'.time = st.time
      cases hq : toFloatE v with
      | error e =>
        intro h
        rw [exceptBind_error] at h
        cases h
      | ok q =>
        simp only [exceptBind_ok]
        intro h
        injection h with h1
        subst h1
        rfl

/-- When no total-energy line matched, the idle branch also preserves
`parse_time`. -/
theorem elseBranch_no_energy_parse_time (output : String) (st : JobSt) (line : String)
    (st' : JobSt) (he : reSearch energy_patt line = none)
    (h : elseBranch output st line = .ok st') : st'.parse_time = st.parse_time := by
  unfold elseBranch at h
  rw [he] at h
  exact (elsePath_frame output st line st' h).2

/-- The failure-signature sweep only appends error tags: every other
field is untouched (stated for the fields the timing analysis needs). -/
theorem errFold_frame (line : String) (l : List (String × String)) :
    ∀ st : JobSt,
      (l.foldl (fun s ev => if strContains line ev.1 then
          { s with errors := s.errors ++ [ev.2] } else s) st).time = st.time ∧
      (l.foldl (fun s ev => if strContains line ev.1 then
          { s with errors := s.errors ++ [ev.2] } else s) st).parse_time = st.parse_time ∧
      (l.foldl (fun s ev => if strContains line ev.1 then
          { s with errors := s.errors ++ [ev.2] } else s) st).parse_geom = st.parse_geom ∧
      (l.foldl (fun s ev => if strContains line ev.1 then
          { s with errors := s.errors ++ [ev.2] } else s) st).parse_force = st.parse_force ∧
      (l.foldl (fun s ev => if strContains line ev.1 then
          { s with errors := s.errors ++ [ev.2] } else s) st).parse_freq = st.parse_freq ∧
      (l.foldl (fun s ev => if strContains line ev.1 then
          { s with errors := s.errors ++ [ev.2] } else s) st).parse_projected_freq =
        st.parse_projected_freq ∧
      (l.foldl (fun s ev => if strContains line ev.1 then
          { s with errors := s.errors ++ [ev.2] } else s) st).parse_bset = st.parse_bset ∧
      (l.foldl (fun s ev => if strContains line ev.1 then
          { s with errors := s.errors ++ [ev.2] } else s) st).parse_hess = st.parse_hess ∧
      (l.foldl (fun s ev => if strContains line ev.1 then
          { s with errors := s.errors ++ [ev.2] } else s) st).parse_proj_hess =
        st.parse_proj_hess := by
  induction l with
  | nil =>
    intro st
    exact ⟨rfl, rfl, rfl, rfl, rfl, rfl, rfl, rfl, rfl⟩
  | cons a t ih =>
    intro st
    rw [List.foldl_cons]
    have h2 := ih (if strContains line a.1 then { st with errors := st.errors ++ [a.2] }
      else st)
    refine ⟨h2.1.trans ?_, h2.2.1.trans ?_, h2.2.2.1.trans ?_, h2.2.2.2.1.trans ?_,
      h2.2.2.2.2.1.trans ?_, h2.2.2.2.2.2.1.trans ?_, h2.2.2.2.2.2.2.1.trans ?_,
      h2.2.2.2.2.2.2.2.1.trans ?_, h2.2.2.2.2.2.2.2.2.trans ?_⟩ <;> (split <;> rfl)

theorem errSweep_frame (st : JobSt) (line : String) :
    (errSweep st line).time = st.time ∧
    (errSweep st line).parse_time = st.parse_time ∧
    (errSweep st line).parse_geom = st.parse_geom ∧
    (errSweep st line).parse_force = st.parse_force ∧
    (errSweep st line).parse_freq = st.parse_freq ∧
    (errSweep st line).parse_projected_freq = st.parse_projected_freq ∧
    (errSweep st line).parse_bset = st.parse_bset ∧
    (errSweep st line).parse_hess = st.parse_hess ∧
    (errSweep st line).parse_proj_hess = st.parse_proj_hess :=
  errFold_frame line error_defs st

/-- While armed, a `time_patt` match records the matched token and
disarms the flag. -/
theorem timeCheck_armed_hit (st : JobSt) (line : String) (c : String) (r : List String)
    (hp : st.parse_time = true) (ht : reSearch time_patt line = some (c :: r)) :
    timeCheck st line = { st with time := Sum.inr c, parse_time := false } := by
  unfold timeCheck
  rw [hp, if_pos rfl, ht]

/-- While unarmed, the timing check does nothing. -/
theorem timeCheck_unarmed (st : JobSt) (line : String) (hp : st.parse_time = false) :
    timeCheck st line = st := by
  unfold timeCheck
  rw [hp, if_neg Bool.false_ne_true]

/-- While armed, a line not matching `time_patt` leaves the armed flag and
the time untouched. -/
theorem timeCheck_armed_miss (st : JobSt) (line : String) (hp : st.parse_time = true)
    (ht : reSearch time_patt line = none) : timeCheck st line = st := by
  unfold timeCheck
  rw [hp, if_pos rfl, ht]

/-- With no block state active, the dispatcher runs the idle branch. -/
theorem blockDispatch_idle (output : String) (st : JobSt) (line : String)
    (h1 : st.parse_force = false) (h2 : st.parse_freq = false)
    (h3 : st.parse_projected_freq = false) (h4 : st.parse_bset = false)
    (h5 : st.parse_hess = false) (h6 : st.parse_proj_hess = false) :
    blockDispatch output st line = elseBranch output st line := by
  unfold blockDispatch
  rw [h1, if_neg Bool.false_ne_true, h2, if_neg Bool.false_ne_true,
    h3, if_neg Bool.false_ne_true, h4, if_neg Bool.false_ne_true,
    h5, if_neg Bool.false_ne_true, h6, if_neg Bool.false_ne_true]

/-- The timing check only touches `time` and `parse_time`. -/
theorem timeCheck_frame (st : JobSt) (line : String) :
    (timeCheck st line).parse_geom = st.parse_geom ∧
    (timeCheck st line).parse_force = st.parse_force ∧
    (timeCheck st line).parse_freq = st.parse_freq ∧
    (timeCheck st line).parse_projected_freq = st.parse_projected_freq ∧
    (timeCheck st line).parse_bset = st.parse_bset ∧
    (timeCheck st line).parse_hess = st.parse_hess ∧
    (timeCheck st line).parse_proj_hess = st.parse_proj_hess ∧
    (timeCheck st line).energies = st.energies := by
  unfold timeCheck
  split
  · split
    · exact ⟨rfl, rfl, rfl, rfl, rfl, rfl, rfl, rfl⟩
    · exact ⟨rfl, rfl, rfl, rfl, rfl, rfl, rfl, rfl⟩
  · exact ⟨rfl, rfl, rfl, rfl, rfl, rfl, rfl, rfl⟩

/-- With no block state and no geometry state active, a processed line
reduces to sweep, timing check and the idle branch. -/
theorem processLine_idle (output : String) (st0 : JobSt) (line : String)
    (hg : st0.parse_geom = false)
    (h1 : st0.parse_force = false) (h2 : st0.parse_freq = false)
    (h3 : st0.parse_projected_freq = false) (h4 : st0.parse_bset = false)
    (h5 : st0.parse_hess = false) (h6 : st0.parse_proj_hess = false) :
    processLine output st0 line =
      elseBranch output (timeCheck (errSweep st0 line) line) line := by
  have hs := errSweep_frame st0 line
  have htf := timeCheck_frame (errSweep st0 line) line
  unfold processLine
  show (if (timeCheck (errSweep st0 line) line).parse_geom = true
      then (geomStep (timeCheck (errSweep st0 line) line) line >>=
        fun st3 => blockDispatch output st3 line)
      else (Except.ok (timeCheck (errSweep st0 line) line) >>=
        fun st3 => blockDispatch output st3 line)) = _
  rw [htf.1.trans (hs.2.2.1.trans hg), if_neg Bool.false_ne_true, exceptBind_ok]
  exact blockDispatch_idle output _ line
    (htf.2.1.trans (hs.2.2.2.1.trans h1))
    (htf.2.2.1.trans (hs.2.2.2.2.1.trans h2))
    (htf.2.2.2.1.trans (hs.2.2.2.2.2.1.trans h3))
    (htf.2.2.2.2.1.trans (hs.2.2.2.2.2.2.1.trans h4))
    (htf.2.2.2.2.2.1.trans (hs.2.2.2.2.2.2.2.1.trans h5))
    (htf.2.2.2.2.2.2.1.trans (hs.2.2.2.2.2.2.2.2.trans h6))

/-- C8 (amended): the one-shot timing mechanism, for a scan state with no
block section active (the setting of the claim: a total-energy line
followed later by the task-timing line).  (i) While the flag is armed, the
first line matching the task-timing pattern (and not itself a total-energy
line) records the matched CPU-seconds token — the raw string, not a parsed
float — and disarms the flag; (ii) while the flag is unarmed no line
changes the recorded time, so the recording fires at most once per arming;
(iii) a total-energy line arms the flag; (iv) while armed, a line not
matching the pattern leaves the flag armed and the time unchanged, so the
recording need not happen on the immediately following line. -/
theorem C8_timing_flag (output : String) (st0 : JobSt)
    (hg : st0.parse_geom = false)
    (h1 : st0.parse_force = false) (h2 : st0.parse_freq = false)
    (h3 : st0.parse_projected_freq = false) (h4 : st0.parse_bset = false)
    (h5 : st0.parse_hess = false) (h6 : st0.parse_proj_hess = false) :
    (∀ (line c : String) (r : List String) (st' : JobSt),
      st0.parse_time = true → reSearch time_patt line = some (c :: r) →
      reSearch energy_patt line = none →
      processLine output st0 line = .ok st' →
      st'.time = Sum.inr c ∧ st'.parse_time = false) ∧
    (∀ (line : String) (st' : JobSt),
      st0.parse_time = false → processLine output st0 line = .ok st' →
      st'.time = st0.time) ∧
    (∀ (line v : String) (r : List String) (q : ℚ) (st' : JobSt),
      reSearch energy_patt line = some (v :: r) → toFloatE v = .ok q →
      processLine output st0 line = .ok st' → st'.parse_time = true) ∧
    (∀ (line : String) (st' : JobSt),
      st0.parse_time = true → reSearch time_patt line = none →
      reSearch energy_patt line = none →
      processLine output st0 line = .ok st' →
      st'.time = st0.time ∧ st'.parse_time = true) := by
  refine ⟨?_, ?_, ?_, ?_⟩
  · intro line c r st' hp ht he h
    rw [processLine_idle output st0 line hg h1 h2 h3 h4 h5 h6] at h
    have hs := errSweep_frame st0 line
    rw [timeCheck_armed_hit (errSweep st0 line) line c r (hs.2.1.trans hp) ht] at h
    constructor
    · exact (elseBranch_time output _ line st' h).trans rfl
    · exact (elseBranch_no_energy_parse_time output _ line st' he h).trans rfl
  · intro line st' hp h
    rw [processLine_idle output st0 line hg h1 h2 h3 h4 h5 h6] at h
    have hs := errSweep_frame st0 line
    rw [timeCheck_unarmed (errSweep st0 line) line (hs.2.1.trans hp)] at h
    exact (elseBranch_time output _ line st' h).trans hs.1
  · intro line v r q st' he hq h
    rw [processLine_idle output st0 line hg h1 h2 h3 h4 h5 h6] at h
    rw [elseBranch_energy output _ line v r q he hq] at h
    injection h with h1
    subst h1
    rfl
  · intro line st' hp ht he h
    rw [processLine_idle output st0 line hg h1 h2 h3 h4 h5 h6] at h
    have hs := errSweep_frame st0 line
    rw [timeCheck_armed_miss (errSweep st0 line) line (hs.2.1.trans hp) ht] at h
    exact ⟨(elseBranch_time output _ line st' h).trans hs.1,
      (elseBranch_no_energy_parse_time output _ line st' he h).trans (hs.2.1.trans hp)⟩

/-- Scan state with the one-shot timing flag armed. -/
def c8armedSt : JobSt := { initJobSt with parse_time := true }

/-- A task-timing line as printed by the engine. -/
def c8lineT : String := " Task  times  cpu:        0.3s  wall: 0.4s"

/-- The state after processing the timing line while armed. -/
def c8hitSt : JobSt :=
  match processLine "" c8armedSt c8lineT with
  | .ok s => s
  | .error _ => c8armedSt

/-- Witness for C8 (amended): processing a concrete task-timing line while
armed records the token `"0.3"` and disarms the flag. -/
theorem C8_timing_flag_witness :
    processLine "" c8armedSt c8lineT = .ok c8hitSt ∧
      c8hitSt.time = Sum.inr "0.3" ∧ c8hitSt.parse_time = false := by
  have happ := (C8_timing_flag "" c8armedSt rfl rfl rfl rfl rfl rfl rfl).1 c8lineT "0.3" []
    c8hitSt rfl (by with_unfolding_all rfl) (by with_unfolding_all rfl)
    (by with_unfolding_all rfl)
  exact ⟨by with_unfolding_all rfl, happ.1, happ.2⟩

/-- The job chunk of the C8 counterexample: a total-energy line arming the
flag, a filler line, then the task-timing line. -/
def c8input : String :=
  " Total DFT energy = -1.0\nother line\n Task  times  cpu:        0.3s  wall: 0.4s"

/-- An empty job record, used only as a fallback when extracting the ok
value of a decode. -/
def emptyJobRecord : JobRecord :=
  JobRecord.mk [] "" [] [] [] [] [] [] false none none none none [] (Sum.inl 0)

/-- The decoded record of the C8 counterexample input. -/
def c8rec : JobRecord :=
  match parse_job c8input with
  | .ok r => r
  | .error _ => emptyJobRecord

/-- C8 counterexample: on the concrete chunk with an armed timing line,
the job record's task time is the raw matched string `"0.3"` (Python
stores `match[1]`, an `str`, and the field was initialized to the `int`
`0`) — not a float as the claim's data model asserts. -/
theorem C8_counterexample :
    parse_job c8input = .ok c8rec ∧ c8rec.task_time = Sum.inr "0.3" := by
  constructor
  · with_unfolding_all rfl
  · with_unfolding_all rfl

/-- C7: in the idle branch, a gas-phase energy line converts the
just-appended plain (scalar) energy entry in place into a mapping holding
the previous scalar under `"cosmo scf"` and the new value under
`"gas phase"`; a subsequent sol-phase line adds the `"sol phase"` key to
that same mapping, giving the 3-key solvated entry. -/
theorem C7_cosmo_energy_entry (output : String) (st : JobSt)
    (line1 line2 v1 v2 : String) (r1 r2 : List String)
    (es : List PyVal) (e q1 q2 : ℚ)
    (he1 : reSearch energy_patt line1 = none)
    (hg1 : reSearch energy_gas_patt line1 = some (v1 :: r1))
    (hs1 : reSearch energy_sol_patt line1 = none)
    (hq1 : toFloatE v1 = .ok q1)
    (hen : st.energies = es ++ [PyVal.num e])
    (he2 : reSearch energy_patt line2 = none)
    (hg2 : reSearch energy_gas_patt line2 = none)
    (hs2 : reSearch energy_sol_patt line2 = some (v2 :: r2))
    (hq2 : toFloatE v2 = .ok q2) :
    ∀ st1, elseBranch output st line1 = .ok st1 →
      st1.energies = es ++ [PyVal.dict [("cosmo scf", PyVal.num e),
        ("gas phase", PyVal.num (q1 * Ha_to_eV))]] ∧
      ∀ st2, elseBranch output st1 line2 = .ok st2 →
        st2.energies = es ++ [PyVal.dict [("cosmo scf", PyVal.num e),
          ("gas phase", PyVal.num (q1 * Ha_to_eV)),
          ("sol phase", PyVal.num (q2 * Ha_to_eV))]] := by
  intro st1 h
  unfold elseBranch at h
  rw [he1] at h
  have h' : (gasStep st line1 >>= fun s1 =>
      solStep s1 line1 >>= fun s2 => elseTail output s2 line1) = Except.ok st1 := h
  rw [gasStep_converts st line1 v1 r1 es (PyVal.num e) q1 hg1 hen hq1] at h'
  simp only [exceptBind_ok] at h'
  rw [solStep_none _ line1 hs1] at h'
  simp only [exceptBind_ok] at h'
  have hframe := elseTail_frame output _ line1 st1 h'
  have hen1 : st1.energies = es ++ [PyVal.dict [("cosmo scf", PyVal.num e),
      ("gas phase", PyVal.num (q1 * Ha_to_eV))]] := hframe.1
  refine ⟨hen1, ?_⟩
  intro st2 h2
  unfold elseBranch at h2
  rw [he2] at h2
  have h2' : (gasStep st1 line2 >>= fun s1 =>
      solStep s1 line2 >>= fun s2 => elseTail output s2 line2) = Except.ok st2 := h2
  rw [gasStep_none st1 line2 hg2] at h2'
  simp only [exceptBind_ok] at h2'
  rw [solStep_adds st1 line2 v2 r2 es
    [("cosmo scf", PyVal.num e), ("gas phase", PyVal.num (q1 * Ha_to_eV))] q2 hs2 hen1 hq2]
    at h2'
  simp only [exceptBind_ok] at h2'
  have hframe2 := elseTail_frame output _ line2 st2 h2'
  exact hframe2.1.trans rfl

/-- Scan state of the C7 witness: one plain energy entry just appended. -/
def c7st0 : JobSt := { initJobSt with energies := [PyVal.num 1] }

/-- State after the gas-phase line of the C7 witness. -/
def c7mid : JobSt :=
  match elseBranch "" c7st0 " gas phase energy = 2.0" with
  | .ok s => s
  | .error _ => c7st0

/-- State after the sol-phase line of the C7 witness. -/
def c7fin : JobSt :=
  match elseBranch "" c7mid " sol phase energy = 3.0" with
  | .ok s => s
  | .error _ => c7mid

/-- Witness for C7 at concrete gas- and sol-phase lines over a state with
the plain entry `1`. -/
theorem C7_cosmo_energy_entry_witness :
    elseBranch "" c7st0 " gas phase energy = 2.0" = .ok c7mid ∧
      c7mid.energies = [PyVal.dict [("cosmo scf", PyVal.num 1),
        ("gas phase", PyVal.num (2 * Ha_to_eV))]] ∧
      elseBranch "" c7mid " sol phase energy = 3.0" = .ok c7fin ∧
      c7fin.energies = [PyVal.dict [("cosmo scf", PyVal.num 1),
        ("gas phase", PyVal.num (2 * Ha_to_eV)),
        ("sol phase", PyVal.num (3 * Ha_to_eV))]] := by
  have happ := C7_cosmo_energy_entry "" c7st0 " gas phase energy = 2.0"
    " sol phase energy = 3.0" "2.0" "3.0" [] [] [] 1 2 3
    (by with_unfolding_all rfl) (by with_unfolding_all rfl) (by with_unfolding_all rfl)
    (by with_unfolding_all rfl) (by with_unfolding_all rfl) (by with_unfolding_all rfl)
    (by with_unfolding_all rfl) (by with_unfolding_all rfl) (by with_unfolding_all rfl)
    c7mid (by with_unfolding_all rfl)
  refine ⟨by with_unfolding_all rfl, happ.1, by with_unfolding_all rfl, ?_⟩
  exact happ.2 c7fin (by with_unfolding_all rfl)

/-- The crafted TDDFT block of the claim. -/
def c4input : String :=
  "  Convergence criterion met\n  singlet excited\n  Root 1 2.5 eV\n  Dipole Oscillator Strength 0.3\n  Excited state energy\n"

/-- C4: while the converged-root flag is true, a line containing both
`Root` and `eV` (and none of the four tag phrases) appends a new root
under the current multiplicity label with its energy taken from the
second-to-last whitespace token; a line containing
`Dipole Oscillator Strength` (and no tag phrase and no `Root`) attaches
its last token as the oscillator strength of the most recent root under
that label; and on the crafted block the singlet list holds exactly one
root with energy `2.5` and oscillator strength `0.3`. -/
theorem C4_tddft_roots :
    (∀ (st : TDSt) (line t : String) (q : ℚ),
      st.inside = true →
      strContains (pyStrip line) "Convergence criterion met" = false →
      strContains (pyStrip line) "Excited state energy" = false →
      strContains (pyStrip line) "singlet excited" = false →
      strContains (pyStrip line) "triplet excited" = false →
      strContains (pyStrip line) "Root" = true →
      strContains (pyStrip line) "eV" = true →
      pyGetE (pySplitWs (pyStrip line)) (-2) = .ok t →
      toFloatE t = .ok q →
      tddftStep st line = tdAppendRoot st (TDRoot.mk q none)) ∧
    (∀ (st : TDSt) (line t : String) (osc : ℚ),
      st.inside = true →
      strContains (pyStrip line) "Convergence criterion met" = false →
      strContains (pyStrip line) "Excited state energy" = false →
      strContains (pyStrip line) "singlet excited" = false →
      strContains (pyStrip line) "triplet excited" = false →
      strContains (pyStrip line) "Root" = false →
      strContains (pyStrip line) "Dipole Oscillator Strength" = true →
      pyGetE (pySplitWs (pyStrip line)) (-1) = .ok t →
      toFloatE t = .ok osc →
      tddftStep st line = tdSetLastOsc st osc) ∧
    parse_tddft c4input =
      .ok (TDSt.mk false "singlet" [TDRoot.mk (5 / 2) (some (3 / 10))] []) := by
  refine ⟨?_, ?_, by with_unfolding_all rfl⟩
  · intro st line t q hin h1 h2 h3 h4 hroot hev hget hq
    unfold tddftStep
    rw [if_neg (ne_true_of_eq_false h1), if_neg (ne_true_of_eq_false h2),
      if_neg (ne_true_of_eq_false h3), if_neg (ne_true_of_eq_false h4),
      hin, hroot, hev,
      if_pos (show ((true && true && true : Bool) = true) from rfl), hget]
    simp only [exceptBind_ok]
    rw [hq]
    simp only [exceptBind_ok]
  · intro st line t osc hin h1 h2 h3 h4 hroot hdip hget hosc
    unfold tddftStep
    rw [if_neg (ne_true_of_eq_false h1), if_neg (ne_true_of_eq_false h2),
      if_neg (ne_true_of_eq_false h3), if_neg (ne_true_of_eq_false h4),
      hin, hroot, hdip]
    rw [if_neg (by simp), if_pos (show ((true && true : Bool) = true) from rfl), hget]
    simp only [exceptBind_ok]
    rw [hosc]
    simp only [exceptBind_ok]

/-- Witness for C4 at the crafted lines: the Root line appends the energy
`5/2` under the singlet label of the armed state, and the Dipole line sets
the oscillator strength of that root to `3/10`. -/
theorem C4_tddft_roots_witness :
    tddftStep (TDSt.mk true "singlet" [] []) "  Root 1 2.5 eV" =
      tdAppendRoot (TDSt.mk true "singlet" [] []) (TDRoot.mk (5 / 2) none) ∧
    tddftStep (TDSt.mk true "singlet" [TDRoot.mk (5 / 2) none] [])
        "  Dipole Oscillator Strength 0.3" =
      tdSetLastOsc (TDSt.mk true "singlet" [TDRoot.mk (5 / 2) none] []) (3 / 10) := by
  constructor
  · exact (C4_tddft_roots.1) (TDSt.mk true "singlet" [] []) "  Root 1 2.5 eV" "2.5" (5 / 2)
      rfl (by with_unfolding_all rfl) (by with_unfolding_all rfl) (by with_unfolding_all rfl)
      (by with_unfolding_all rfl) (by with_unfolding_all rfl) (by with_unfolding_all rfl)
      (by with_unfolding_all rfl) (by with_unfolding_all rfl)
  · exact (C4_tddft_roots.2.1) (TDSt.mk true "singlet" [TDRoot.mk (5 / 2) none] [])
      "  Dipole Oscillator Strength 0.3" "0.3" (3 / 10)
      rfl (by with_unfolding_all rfl) (by with_unfolding_all rfl) (by with_unfolding_all rfl)
      (by with_unfolding_all rfl) (by with_unfolding_all rfl) (by with_unfolding_all rfl)
      (by with_unfolding_all rfl) (by with_unfolding_all rfl)

theorem pyGetE_zero {α : Type} (l : List α) (d : α) (hne : l ≠ []) :
    pyGetE l 0 = .ok (l.headD d) := by
  cases l with
  | nil => exact absurd rfl hne
  | cons a t =>
    have hif : (if (0 : ℤ) < 0 then (0 : ℤ) + ((a :: t).length : ℤ) else 0) = 0 :=
      if_neg (by norm_num)
    have hc : ((0 : ℤ)).toNat < (a :: t).length ∧ (0 : ℤ) ≤ (0 : ℤ) := by
      constructor
      · simp
      · norm_num
    unfold pyGetE
    simp only [hif]
    rw [dif_pos hc]
    rfl

/-- The crafted log of the C6 counterexample: two converged singlet roots
printed in the order 3.0 eV then 1.0 eV. -/
def c6raw : String :=
  "Convergence criterion met\nRoot 1 3.0 eV\nDipole Oscillator Strength 1.0\nRoot 2 1.0 eV\nDipole Oscillator Strength 1.0\n"

/-- The synthesized spectrum of the C6 counterexample. -/
def c6sp : ExcitationSpectrum :=
  match get_excitation_spectrum c6raw (1 / 10) 4 with
  | .ok sp => sp
  | .error _ => ExcitationSpectrum.mk [] [] 0 0 0

/-- C6 counterexample: with singlet roots listed as `[3.0, 1.0]` and
`width = 1/10`, the code spans the grid from `en[0] - 20·width = 1` to
`en[-1] + 20·width = 3` using the first and last roots in log order, not
the minimum and maximum.  The claim's span start `min - 20·width = -1`
and span end `max + 20·width = 5` are both missed (the grid is
`[1, 3/2, 2, 5/2]`). -/
theorem C6_counterexample :
    get_excitation_spectrum c6raw (1 / 10) 4 = .ok c6sp ∧
      c6sp.x = [1, 3 / 2, 2, 5 / 2] ∧
      c6sp.x.headD 0 ≠ min (3 : ℚ) 1 - 20 * (1 / 10) ∧
      c6sp.x.getLastD 0 ≠ max (3 : ℚ) 1 + 20 * (1 / 10) := by
  refine ⟨by with_unfolding_all rfl, by with_unfolding_all rfl,
    by with_unfolding_all decide, by with_unfolding_all decide⟩

/-- C6 (amended): for every non-empty singlet root list whose roots all
carry oscillator strengths, the synthesizer builds a uniform grid of the
requested number of points starting at (first-listed root energy −
20×width) with spacing ((last-listed root energy + 20×width) − (first −
20×width)) / npoints (so the grid covers that span with the end point
excluded), and the effective broadening width equals the larger of the
supplied width and twice the grid spacing. -/
theorem C6_spectrum_grid (raw : String) (width : ℚ) (npoints : ℕ) (td : TDSt)
    (oscs : List ℚ)
    (htd : parse_tddft raw = .ok td)
    (hne : td.singlet ≠ [])
    (hosc : td.singlet.mapM (fun d =>
        match d.osc_strength with
        | some o => pure o
        | none => Except.error "KeyError: osc_strength") = .ok oscs)
    (hnp : 2 ≤ npoints) :
    ∃ sp, get_excitation_spectrum raw width npoints = .ok sp ∧
      sp.x = (List.range npoints).map (fun ie : ℕ =>
        ((td.singlet.map TDRoot.energy).headD 0 - 20 * width) + (ie : ℚ) *
          ((((td.singlet.map TDRoot.energy).getLastD 0 + 20 * width) -
              ((td.singlet.map TDRoot.energy).headD 0 - 20 * width)) / (npoints : ℚ))) ∧
      sp.x.length = npoints ∧
      sp.effWidth = max width (2 *
        ((((td.singlet.map TDRoot.energy).getLastD 0 + 20 * width) -
            ((td.singlet.map TDRoot.energy).headD 0 - 20 * width)) / (npoints : ℚ))) := by
  have hsing : ∃ L b, td.singlet = L ++ [b] := by
    rcases List.eq_nil_or_concat td.singlet with h | ⟨L, b, h⟩
    · exact absurd h hne
    · exact ⟨L, b, by rw [h, List.concat_eq_append]⟩
  obtain ⟨L, b, hLb⟩ := hsing
  have hmapne : td.singlet.map TDRoot.energy ≠ [] := by
    rw [hLb, List.map_append]
    simp
  have hg0 : pyGetE (td.singlet.map TDRoot.energy) 0 =
      .ok ((td.singlet.map TDRoot.energy).headD 0) :=
    pyGetE_zero _ _ hmapne
  have hgL : pyGetE (td.singlet.map TDRoot.energy) (-1) =
      .ok ((td.singlet.map TDRoot.energy).getLastD 0) := by
    rw [hLb, List.map_append]
    rw [show List.map TDRoot.energy [b] = [TDRoot.energy b] from rfl]
    rw [pyGetE_last, List.getLastD_concat]
  obtain ⟨k, rfl⟩ : ∃ k, npoints = k + 2 := ⟨npoints - 2, by omega⟩
  have h0 : ¬(k + 2 = 0) := by omega
  have h1 : ¬(k + 2 = 1) := by omega
  unfold get_excitation_spectrum
  rw [htd]
  simp only [exceptBind_ok, hosc, hg0, hgL, if_neg h0, if_neg h1]
  rw [show (List.range (k + 2)) = List.range (k + 1) ++ [k + 1] from List.range_succ (k + 1),
    List.map_append]
  simp only [List.map_cons, List.map_nil, pyGetE_last, exceptBind_ok]
  have hzne : (List.range (k + 1)).map (fun ie : ℕ =>
      ((td.singlet.map TDRoot.energy).headD 0 - 20 * width) + (ie : ℚ) *
        ((((td.singlet.map TDRoot.energy).getLastD 0 + 20 * width) -
            ((td.singlet.map TDRoot.energy).headD 0 - 20 * width)) / ((k + 2 : ℕ) : ℚ))) ++
      [((td.singlet.map TDRoot.energy).headD 0 - 20 * width) + ((k + 1 : ℕ) : ℚ) *
        ((((td.singlet.map TDRoot.energy).getLastD 0 + 20 * width) -
            ((td.singlet.map TDRoot.energy).headD 0 - 20 * width)) / ((k + 2 : ℕ) : ℚ))] ≠
      [] := by simp
  rw [pyGetE_zero _ 0 hzne]
  simp only [exceptBind_ok]
  refine ⟨_, rfl, rfl, ?_, rfl⟩
  simp only [List.length_append, List.length_map, List.length_range, List.length_cons,
    List.length_nil]

/-- Concrete extractor result for the C6 witness. -/
def c6td : TDSt := TDSt.mk true "singlet" [TDRoot.mk 3 (some 1), TDRoot.mk 1 (some 1)] []

theorem C6_spectrum_grid_witness :
    ∃ sp, get_excitation_spectrum c6raw (1 / 10) 4 = .ok sp ∧
      sp.x = (List.range 4).map (fun ie : ℕ =>
        ((c6td.singlet.map TDRoot.energy).headD 0 - 20 * (1 / 10)) + (ie : ℚ) *
          ((((c6td.singlet.map TDRoot.energy).getLastD 0 + 20 * (1 / 10)) -
              ((c6td.singlet.map TDRoot.energy).headD 0 - 20 * (1 / 10))) / ((4 : ℕ) : ℚ))) ∧
      sp.x.length = 4 ∧
      sp.effWidth = max (1 / 10) (2 *
        ((((c6td.singlet.map TDRoot.energy).getLastD 0 + 20 * (1 / 10)) -
            ((c6td.singlet.map TDRoot.energy).headD 0 - 20 * (1 / 10))) / ((4 : ℕ) : ℚ))) :=
  C6_spectrum_grid c6raw (1 / 10) 4 c6td [1, 1]
    (by with_unfolding_all rfl)
    (by with_unfolding_all decide)
    (by with_unfolding_all rfl)
    (by norm_num)
